import Mathlib

/-!
Shallow embedding of the Notion2Wordpress sync core
(src/lib/retry.ts, src/lib/imageDownloader.ts, src/orchestrator/syncOrchestrator.ts,
src/services/wpService.ts, src/services/notionService.ts, src/db/index.ts)
and proofs about the claims of the specification.

Modelling conventions:
* Remote calls are driven by an explicit environment that prescribes the
  outcome of each call (a value or a thrown error), so all definitions are
  executable and deterministic.
* JavaScript exceptions are `Except`; an async function that can reject is a
  function into `Except`.
* The local SQLite state store (better-sqlite3, src/db/index.ts) is modelled
  as always-succeeding state mutation, except for the job-row insert whose
  failure the coordinator claims discuss; timestamps are natural numbers.
* Concurrency inside one batch of the media pipeline is serialised in list
  order; the batch boundaries themselves are preserved exactly.
-/

namespace N2W

/-! ### src/lib/retry.ts — retryWithBackoff -/

/-- Observable behaviour of one `retryWithBackoff` run: how many times the
wrapped operation was invoked, the `onRetry(error, attempt)` hook calls in
order, the delays slept in order, and the returned value or thrown error.
The thrown error is an `Option`: `Except.error none` models the
`throw lastError!` after a loop that never ran (`maxAttempts < 1`), where
`lastError` was never assigned. -/
structure RetryTrace (E A : Type) where
  invocations : Nat
  hooks : List (E × Nat)
  sleeps : List Nat
  result : Except (Option E) A
deriving Repr

/-- The `for (let attempt = 1; attempt <= maxAttempts; attempt++)` loop of
`retryWithBackoff`. `op n` is the outcome of the n-th invocation of `fn`;
`remaining` counts loop iterations left (so `remaining = 0` models loop
exit, and inside an iteration `remaining = 0` after entry models
`attempt === maxAttempts`). On failure with attempts left the hook fires,
the current delay is slept, and the delay becomes
`min (delay * backoffMultiplier) maxDelayMs`. -/
def retryLoop (op : Nat → Except E A) (mult maxDelay : Nat) :
    Nat → Nat → Nat → RetryTrace E A
  | 0, _, _ => ⟨0, [], [], Except.error none⟩
  | remaining + 1, attempt, delay =>
    match op attempt with
    | Except.ok a => ⟨1, [], [], Except.ok a⟩
    | Except.error e =>
      if remaining = 0 then
        ⟨1, [], [], Except.error (some e)⟩
      else
        let rest := retryLoop op mult maxDelay remaining (attempt + 1)
          (min (delay * mult) maxDelay)
        ⟨rest.invocations + 1, (e, attempt) :: rest.hooks, delay :: rest.sleeps,
          rest.result⟩

/-- `retryWithBackoff(fn, options)` with the options already resolved to
numbers (source defaults: maxAttempts 3, initialDelayMs 1000,
maxDelayMs 30000, backoffMultiplier 2). -/
def retryWithBackoff (op : Nat → Except E A)
    (maxAttempts initialDelayMs maxDelayMs backoffMultiplier : Nat) :
    RetryTrace E A :=
  retryLoop op backoffMultiplier maxDelayMs maxAttempts 1 initialDelayMs

/-- The sequence of delays slept over `k` retries starting from delay `d`:
`d, min (d*m) M, min (min (d*m) M * m) M, …`. -/
def delaySeq (m M : Nat) : Nat → Nat → List Nat
  | _, 0 => []
  | d, k + 1 => d :: delaySeq m M (min (d * m) M) k

/-- The `onRetry` hook calls produced by `k` failures starting at attempt
number `a`, when the n-th invocation fails with `errs n`. -/
def hookSeq (errs : Nat → E) (a : Nat) : Nat → List (E × Nat)
  | 0 => []
  | k + 1 => (errs a, a) :: hookSeq errs (a + 1) k

theorem retryLoop_succeeds_after (op : Nat → Except E A) (errs : Nat → E)
    (v : A) (m M : Nat) :
    ∀ (k remaining a d : Nat), k < remaining →
    (∀ i, a ≤ i → i < a + k → op i = Except.error (errs i)) →
    op (a + k) = Except.ok v →
    retryLoop op m M remaining a d =
      ⟨k + 1, hookSeq errs a k, delaySeq m M d k, Except.ok v⟩ := by
  intro k
  induction k with
  | zero =>
    intro remaining a d hlt _ hok
    obtain ⟨r, rfl⟩ : ∃ r, remaining = r + 1 := ⟨remaining - 1, by omega⟩
    simp only [Nat.add_zero] at hok
    simp [retryLoop, hok, hookSeq, delaySeq]
  | succ k ih =>
    intro remaining a d hlt hfail hok
    obtain ⟨r, rfl⟩ : ∃ r, remaining = r + 1 := ⟨remaining - 1, by omega⟩
    have ha : op a = Except.error (errs a) :=
      hfail a (Nat.le_refl a) (by omega)
    have hr : ¬ (r = 0) := by omega
    have hok' : op (a + 1 + k) = Except.ok v := by
      have h : a + 1 + k = a + (k + 1) := by omega
      rw [h]; exact hok
    have hrest := ih r (a + 1) (min (d * m) M) (by omega)
      (fun i h1 h2 => hfail i (by omega) (by omega)) hok'
    simp only [retryLoop, ha, if_neg hr, hrest, hookSeq, delaySeq]

theorem retryLoop_all_fail (op : Nat → Except E A) (errs : Nat → E)
    (m M : Nat) (hfail : ∀ i, op i = Except.error (errs i)) :
    ∀ (remaining a d : Nat), 0 < remaining →
    retryLoop op m M remaining a d =
      ⟨remaining, hookSeq errs a (remaining - 1),
        delaySeq m M d (remaining - 1),
        Except.error (some (errs (a + remaining - 1)))⟩ := by
  intro remaining
  induction remaining with
  | zero => intro a d h; omega
  | succ r ih =>
    intro a d _
    by_cases hr : r = 0
    · subst hr
      simp [retryLoop, hfail a, hookSeq, delaySeq]
    · have hrest := ih (a + 1) (min (d * m) M) (by omega)
      have h1 : r + 1 - 1 = (r - 1) + 1 := by omega
      have he : a + 1 + r - 1 = a + (r + 1) - 1 := by omega
      simp only [retryLoop, hfail a, if_neg hr, hrest, h1, he, hookSeq, delaySeq]

/-- C5. If the operation fails `k < maxAttempts` times and then succeeds,
`retryWithBackoff` returns the success value after exactly `k+1`
invocations, calling the `onRetry` hook at attempts `1..k` and sleeping the
current delay before each re-invocation, with the delay evolving as
`min (delay * multiplier) maxDelay`; if the operation fails on every
invocation, it invokes exactly `maxAttempts` times and re-raises the last
error. -/
theorem retry_policy_behaviour (op : Nat → Except E A) (errs : Nat → E)
    (v : A) (maxAttempts d0 M m k : Nat)
    (hm : 0 < maxAttempts) (hk : k < maxAttempts) :
    ((∀ i, 1 ≤ i → i < 1 + k → op i = Except.error (errs i)) →
      op (1 + k) = Except.ok v →
      retryWithBackoff op maxAttempts d0 M m =
        ⟨k + 1, hookSeq errs 1 k, delaySeq m M d0 k, Except.ok v⟩) ∧
    ((∀ i, op i = Except.error (errs i)) →
      retryWithBackoff op maxAttempts d0 M m =
        ⟨maxAttempts, hookSeq errs 1 (maxAttempts - 1),
          delaySeq m M d0 (maxAttempts - 1),
          Except.error (some (errs maxAttempts))⟩) := by
  constructor
  · intro hfail hok
    exact retryLoop_succeeds_after op errs v m M k maxAttempts 1 d0 hk hfail hok
  · intro hfail
    have h := retryLoop_all_fail op errs m M hfail maxAttempts 1 d0 hm
    have he : 1 + maxAttempts - 1 = maxAttempts := by omega
    rw [he] at h
    exact h

/-- Concrete run exercising `retry_policy_behaviour`: an operation that
fails twice (errors 10, 20) and succeeds at the third attempt, with the
default options maxAttempts 3, initialDelay 1000, maxDelay 30000,
multiplier 2; and an operation that always fails with error 7. -/
theorem retry_policy_behaviour_witness :
    (0 < 3 ∧ 2 < 3) ∧
    retryWithBackoff
      (fun n => if n ≤ 2 then Except.error (10 * n) else Except.ok "done")
      3 1000 30000 2 =
      ⟨3, [(10, 1), (20, 2)], [1000, 2000], Except.ok "done"⟩ ∧
    retryWithBackoff (fun _ => (Except.error 7 : Except Nat String))
      3 1000 30000 2 =
      ⟨3, [(7, 1), (7, 2)], [1000, 2000], Except.error (some 7)⟩ := by
  refine ⟨⟨by decide, by decide⟩, ?_, ?_⟩
  · have h := (retry_policy_behaviour
      (fun n => if n ≤ 2 then Except.error (10 * n) else Except.ok "done")
      (fun n => 10 * n) "done" 3 1000 30000 2 2 (by decide) (by decide)).1
      (by intro i h1 h2; simp only [if_pos (by omega : i ≤ 2)])
      (by norm_num)
    rw [h]; rfl
  · have h := (retry_policy_behaviour
      (fun _ => (Except.error 7 : Except Nat String))
      (fun _ => 7) "x" 3 1000 30000 2 0 (by decide) (by decide)).2
      (fun _ => rfl)
    rw [h]; rfl

/-! ### src/config/index.ts — defaults used by the pipeline and retry -/

/-- `MAX_CONCURRENT_IMAGE_DOWNLOADS` default from src/config/index.ts. -/
def maxConcurrentImageDownloadsDefault : Nat := 3

/-- `MAX_RETRY_ATTEMPTS` default from src/config/index.ts and retry.ts. -/
def maxRetryAttemptsDefault : Nat := 3

/-! ### src/orchestrator/syncOrchestrator.ts — syncImages batching -/

/-- The batch loop of `syncImages`:
`for (let i = 0; i < images.length; i += maxConcurrent)` with
`batch = images.slice(i, i + maxConcurrent)`. The loop advances by
`maxConcurrent` each iteration, so it is primitive-recursive with fuel
`images.length` (each step drops at least one element when
`maxConcurrent ≥ 1`; with `maxConcurrent = 0` the JS loop never
terminates, so all statements assume `1 ≤ maxConcurrent`). -/
def batchesGo (m : Nat) : Nat → List α → List (List α)
  | _, [] => []
  | 0, _ :: _ => []
  | fuel + 1, x :: xs => ((x :: xs).take m) :: batchesGo m fuel ((x :: xs).drop m)

/-- The consecutive batches of width `m` that `syncImages` processes. -/
def batches (m : Nat) (xs : List α) : List (List α) :=
  batchesGo m xs.length xs

theorem batchesGo_flatten (m : Nat) (hm : 1 ≤ m) :
    ∀ (fuel : Nat) (xs : List α), xs.length ≤ fuel →
    (batchesGo m fuel xs).flatten = xs := by
  intro fuel
  induction fuel with
  | zero =>
    intro xs hlen
    match xs, hlen with
    | [], _ => rfl
  | succ fuel ih =>
    intro xs hlen
    match xs with
    | [] => rfl
    | x :: xs =>
      have hdrop : ((x :: xs).drop m).length ≤ fuel := by
        simp only [List.length_drop, List.length_cons]
        simp only [List.length_cons] at hlen
        omega
      simp only [batchesGo, List.flatten_cons, ih _ hdrop, List.take_append_drop]

theorem batchesGo_mem (m : Nat) (hm : 1 ≤ m) :
    ∀ (fuel : Nat) (xs : List α) (b : List α), b ∈ batchesGo m fuel xs →
    b ≠ [] ∧ b.length ≤ m := by
  intro fuel
  induction fuel with
  | zero =>
    intro xs b hb
    match xs with
    | [] => simp [batchesGo] at hb
    | _ :: _ => simp [batchesGo] at hb
  | succ fuel ih =>
    intro xs b hb
    match xs with
    | [] => simp [batchesGo] at hb
    | x :: xs =>
      simp only [batchesGo, List.mem_cons] at hb
      rcases hb with rfl | hb
      · constructor
        · intro h
          have := congrArg List.length h
          simp only [List.length_take, List.length_cons, List.length_nil] at this
          omega
        · simp [List.length_take]
      · exact ih _ _ hb

/-- Observable behaviour of one `syncImages` run: which references a
transfer was launched for (in order), the collected per-transfer errors,
and the returned value or thrown aggregate error (failure count together
with the individual error list, as in
`Failed to sync ${errors.length} images : ${joined messages}`). -/
structure SyncImagesTrace (α E : Type) where
  attempted : List α
  errors : List E
  result : Except (Nat × List E) Unit
deriving Repr

/-- `syncImages`: process the references in consecutive batches of width
`maxConcurrent`, `Promise.allSettled` each batch (every transfer in the
batch runs regardless of sibling failures), collect all rejections, and
after all batches throw one aggregate error iff at least one transfer
failed. `outcome r` is the settled result of `syncImage` on reference
`r`. -/
def syncImages (outcome : α → Except E Unit) (maxConcurrent : Nat)
    (images : List α) : SyncImagesTrace α E :=
  let bs := batches maxConcurrent images
  let attempted := bs.flatten
  let results := attempted.map outcome
  let errors := results.filterMap (fun r => match r with
    | Except.ok _ => none
    | Except.error e => some e)
  ⟨attempted, errors,
    if 0 < errors.length then Except.error (errors.length, errors)
    else Except.ok ()⟩

/-- The failed references' errors, in reference order. -/
def failuresOf (outcome : α → Except E Unit) (images : List α) : List E :=
  images.filterMap (fun x => match outcome x with
    | Except.ok _ => none
    | Except.error e => some e)

/-- C6. For every list of media references the pipeline partitions them
into consecutive batches of at most `maxConcurrent` (default 3), attempts
every reference even when earlier ones fail, and raises a single aggregate
error naming exactly the failed references iff at least one transfer
failed. -/
theorem pipeline_batching (outcome : α → Except E Unit)
    (maxConcurrent : Nat) (images : List α) (hm : 1 ≤ maxConcurrent) :
    maxConcurrentImageDownloadsDefault = 3 ∧
    (batches maxConcurrent images).flatten = images ∧
    (∀ b ∈ batches maxConcurrent images, b ≠ [] ∧ b.length ≤ maxConcurrent) ∧
    (syncImages outcome maxConcurrent images).attempted = images ∧
    (syncImages outcome maxConcurrent images).errors
      = failuresOf outcome images ∧
    (failuresOf outcome images = [] →
      (syncImages outcome maxConcurrent images).result = Except.ok ()) ∧
    (failuresOf outcome images ≠ [] →
      (syncImages outcome maxConcurrent images).result
        = Except.error ((failuresOf outcome images).length,
            failuresOf outcome images)) := by
  have hjoin : (batches maxConcurrent images).flatten = images :=
    batchesGo_flatten maxConcurrent hm images.length images (Nat.le_refl _)
  have herr : (syncImages outcome maxConcurrent images).errors
      = failuresOf outcome images := by
    simp only [syncImages, hjoin, failuresOf, List.filterMap_map]
    rfl
  have hres : (syncImages outcome maxConcurrent images).result
      = (if 0 < (failuresOf outcome images).length
         then Except.error ((failuresOf outcome images).length,
           failuresOf outcome images)
         else Except.ok ()) := by
    have h0 : (syncImages outcome maxConcurrent images).result
        = (if 0 < (syncImages outcome maxConcurrent images).errors.length
           then Except.error ((syncImages outcome maxConcurrent images).errors.length,
             (syncImages outcome maxConcurrent images).errors)
           else Except.ok ()) := by
      simp only [syncImages]
    rw [h0, herr]
  refine ⟨rfl, hjoin, ?_, ?_, herr, ?_, ?_⟩
  · intro b hb
    exact batchesGo_mem maxConcurrent hm images.length images b hb
  · simp only [syncImages, hjoin]
  · intro hnil
    rw [hres, hnil]
    simp
  · intro hne
    rw [hres]
    have : 0 < (failuresOf outcome images).length := by
      cases h : failuresOf outcome images with
      | nil => exact absurd h hne
      | cons e es => simp [h]
    simp [this]

/-- Concrete run exercising `pipeline_batching`: `maxConcurrent = 2` and
five references where only reference 3 fails — all five are attempted, the
batches are [1,2],[3,4],[5], and the aggregate error names exactly
reference 3. -/
theorem pipeline_batching_witness :
    (1 : Nat) ≤ 2 ∧
    (syncImages (fun n => if n = 3 then Except.error (toString n)
        else Except.ok ()) 2 [1, 2, 3, 4, 5]).attempted = [1, 2, 3, 4, 5] ∧
    batches 2 [1, 2, 3, 4, 5] = [[1, 2], [3, 4], [5]] ∧
    (syncImages (fun n => if n = 3 then Except.error (toString n)
        else Except.ok ()) 2 [1, 2, 3, 4, 5]).errors = ["3"] ∧
    (syncImages (fun n => if n = 3 then Except.error (toString n)
        else Except.ok ()) 2 [1, 2, 3, 4, 5]).result
      = Except.error (1, ["3"]) := by
  have h := pipeline_batching
    (fun n : Nat => if n = 3 then Except.error (toString n) else Except.ok ())
    2 [1, 2, 3, 4, 5] (by decide)
  refine ⟨by decide, h.2.2.2.1, rfl, ?_, ?_⟩
  · exact h.2.2.2.2.1
  · have h7 := h.2.2.2.2.2.2 (by decide)
    rw [h7]
    rfl

/-! ### Outbound call wrappers
(src/services/wpService.ts, src/services/notionService.ts,
src/lib/imageDownloader.ts)

Each service method builds a closure `fn` around the single HTTP call and
passes it to `retryWithBackoff(fn, { onRetry })`; the model keeps the
result type of each call abstract and records the retry trace. `op n` is
the outcome of the n-th HTTP attempt of that call. -/

/-- `wpService.deletePost(postId)` — axios DELETE `/wp/v2/posts/{id}`
passed to `retryWithBackoff` (src/services/wpService.ts). -/
def wpDeletePost (op : Nat → Except E Unit)
    (maxAttempts d0 M mult : Nat) : RetryTrace E Unit :=
  retryWithBackoff op maxAttempts d0 M mult

/-- `wpService.deleteMedia(mediaId)` — axios DELETE `/wp/v2/media/{id}`
passed to `retryWithBackoff` (src/services/wpService.ts). -/
def wpDeleteMedia (op : Nat → Except E Unit)
    (maxAttempts d0 M mult : Nat) : RetryTrace E Unit :=
  retryWithBackoff op maxAttempts d0 M mult

/-- `wpService.createDraftPost(options)` — axios POST `/wp/v2/posts`
passed to `retryWithBackoff`. -/
def wpCreateDraftPost (op : Nat → Except E A)
    (maxAttempts d0 M mult : Nat) : RetryTrace E A :=
  retryWithBackoff op maxAttempts d0 M mult

/-- `wpService.uploadMedia(options)` — axios POST `/wp/v2/media`
passed to `retryWithBackoff`. -/
def wpUploadMedia (op : Nat → Except E A)
    (maxAttempts d0 M mult : Nat) : RetryTrace E A :=
  retryWithBackoff op maxAttempts d0 M mult

/-- `notionService.updatePageStatus(pageId, status)` — `client.pages.update`
passed to `retryWithBackoff` (src/services/notionService.ts). -/
def notionUpdatePageStatus (op : Nat → Except E A)
    (maxAttempts d0 M mult : Nat) : RetryTrace E A :=
  retryWithBackoff op maxAttempts d0 M mult

/-- `notionService.getPageHTML` content fetch — `n2m.pageToMarkdown(pageId)`
passed to `retryWithBackoff`. -/
def notionPageToMarkdown (op : Nat → Except E A)
    (maxAttempts d0 M mult : Nat) : RetryTrace E A :=
  retryWithBackoff op maxAttempts d0 M mult

/-- `notionService.queryPages` — each paginated datasource query request
passed to `retryWithBackoff`. -/
def notionQueryRequest (op : Nat → Except E A)
    (maxAttempts d0 M mult : Nat) : RetryTrace E A :=
  retryWithBackoff op maxAttempts d0 M mult

/-- `imageDownloader.download(options)` — axios GET of the image bytes
passed to `retryWithBackoff` (src/lib/imageDownloader.ts). -/
def imageDownloadCall (op : Nat → Except E A)
    (maxAttempts d0 M mult : Nat) : RetryTrace E A :=
  retryWithBackoff op maxAttempts d0 M mult

/-- C3 counterexample. The compensation delete calls are NOT executed with
a single attempt: under the default retry options, a persistently failing
`wpService.deletePost` / `wpService.deleteMedia` HTTP call is invoked 3
times (`maxAttempts`), not once — both are wrapped in `retryWithBackoff`
exactly like the other outbound calls. -/
theorem compensation_deletes_not_single_attempt :
    (wpDeletePost (fun _ => (Except.error "HTTP 500" : Except String Unit))
      3 1000 30000 2).invocations = 3 ∧
    (wpDeleteMedia (fun _ => (Except.error "HTTP 500" : Except String Unit))
      3 1000 30000 2).invocations = 3 ∧
    ¬ (wpDeletePost (fun _ => (Except.error "HTTP 500" : Except String Unit))
      3 1000 30000 2).invocations = 1 := by
  refine ⟨rfl, rfl, by decide⟩

/-- C3 as amended. Every outbound call of the saga, pipeline and
compensation engine — the destination-resource delete calls included — is
wrapped in the retry policy: each is definitionally `retryWithBackoff`
applied to its HTTP operation, and on a persistently failing operation
each invokes it exactly `maxAttempts` times. -/
theorem outbound_calls_uniformly_retried (E : Type)
    (maxAttempts d0 M mult : Nat) (hm : 0 < maxAttempts)
    (op : Nat → Except E Unit) (errs : Nat → E)
    (hfail : ∀ i, op i = Except.error (errs i)) :
    (wpDeletePost op maxAttempts d0 M mult
        = retryWithBackoff op maxAttempts d0 M mult ∧
      wpDeleteMedia op maxAttempts d0 M mult
        = retryWithBackoff op maxAttempts d0 M mult ∧
      wpCreateDraftPost op maxAttempts d0 M mult
        = retryWithBackoff op maxAttempts d0 M mult ∧
      wpUploadMedia op maxAttempts d0 M mult
        = retryWithBackoff op maxAttempts d0 M mult ∧
      notionUpdatePageStatus op maxAttempts d0 M mult
        = retryWithBackoff op maxAttempts d0 M mult ∧
      notionPageToMarkdown op maxAttempts d0 M mult
        = retryWithBackoff op maxAttempts d0 M mult ∧
      notionQueryRequest op maxAttempts d0 M mult
        = retryWithBackoff op maxAttempts d0 M mult ∧
      imageDownloadCall op maxAttempts d0 M mult
        = retryWithBackoff op maxAttempts d0 M mult) ∧
    (wpDeletePost op maxAttempts d0 M mult).invocations = maxAttempts ∧
    (wpDeleteMedia op maxAttempts d0 M mult).invocations = maxAttempts := by
  have h := retryLoop_all_fail op errs mult M hfail maxAttempts 1 d0 hm
  refine ⟨⟨rfl, rfl, rfl, rfl, rfl, rfl, rfl, rfl⟩, ?_, ?_⟩
  · show (retryWithBackoff op maxAttempts d0 M mult).invocations = maxAttempts
    rw [retryWithBackoff, h]
  · show (retryWithBackoff op maxAttempts d0 M mult).invocations = maxAttempts
    rw [retryWithBackoff, h]

/-- Concrete run exercising `outbound_calls_uniformly_retried` at the
default retry options with a persistently failing HTTP operation. -/
theorem outbound_calls_uniformly_retried_witness :
    (0 : Nat) < 3 ∧
    (wpDeletePost (fun _ => (Except.error "HTTP 500" : Except String Unit))
      3 1000 30000 2).invocations = 3 := by
  refine ⟨by decide, ?_⟩
  exact (outbound_calls_uniformly_retried String 3 1000 30000 2 (by decide)
    (fun _ => Except.error "HTTP 500") (fun _ => "HTTP 500")
    (fun _ => rfl)).2.1

/-! ### src/lib/imageDownloader.ts — download response, and the upload
filename computed by syncImage (src/orchestrator/syncOrchestrator.ts) -/

/-- The response of `imageDownloader.download` in the current
src/lib/imageDownloader.ts: `{ buffer, hash, contentType, size }`. Note
that it carries NO `filename` field (an earlier revision and the
repository's own imageDownloader tests return/expect one). -/
structure DownloadImageResponse where
  buffer : List Nat
  hash : String
  contentType : String
  size : Nat
deriving Repr, DecidableEq

/-- `getExtensionFromContentType` of syncOrchestrator.ts: a lookup table
with fallback `'jpg'`. -/
def getExtensionFromContentType (contentType : String) : String :=
  if contentType = "image/jpeg" then "jpg"
  else if contentType = "image/jpg" then "jpg"
  else if contentType = "image/png" then "png"
  else if contentType = "image/gif" then "gif"
  else if contentType = "image/webp" then "webp"
  else if contentType = "image/svg+xml" then "svg"
  else "jpg"

/-- The value bound to `ogfname` by
`const { filename: ogfname, buffer, hash, contentType } = await imageDownloader.download(...)`:
the destructured property is absent from `DownloadImageResponse`, so
`ogfname` is `undefined`, which the template literal renders as the
string "undefined". -/
def ogfname (_resp : DownloadImageResponse) : String := "undefined"

/-- The destination filename computed by `syncImage`:
`` `${ogfname}-${hash.substring(0, 16)}.${extension}` ``. -/
def syncImageFilename (resp : DownloadImageResponse) : String :=
  ogfname resp ++ "-" ++ resp.hash.take 16 ++ "."
    ++ getExtensionFromContentType resp.contentType

/-- C4 (evaluation of the buggy code). For the download of
`https://example.com/my-image.png` (original filename `my-image`, which
the repository's imageDownloader tests expect `download` to return), the
computed destination filename is `undefined-0123456789abcdef.png`: the
original filename never occurs in it, and for EVERY download response the
filename starts with the literal text `undefined-`, because the current
`DownloadImageResponse` carries no filename field at all. -/
theorem syncImage_filename_ignores_original_name :
    syncImageFilename ⟨[1, 2, 3], "0123456789abcdefcafe", "image/png", 3⟩
      = "undefined-0123456789abcdef.png" ∧
    (∀ resp : DownloadImageResponse, ∃ rest : String,
      syncImageFilename resp = "undefined-" ++ rest) := by
  refine ⟨rfl, ?_⟩
  intro resp
  refine ⟨resp.hash.take 16 ++ "." ++ getExtensionFromContentType resp.contentType, ?_⟩
  have h : "undefined" ++ "-" = "undefined-" := rfl
  simp only [syncImageFilename, ogfname]
  rw [h]
  simp [String.append_assoc]

/-! ### src/enums — statuses
(src/enums/db.enums.ts; the Notion page statuses come from
src/enums/notion.enums.ts which is absent from the snapshot, with the
values taken from its call sites in the orchestrator and services:
Adding, Done, Error.) -/

inductive JobStatus
  | running
  | completed
  | failed
deriving Repr, DecidableEq

inductive JobItemStatus
  | pending
  | success
  | failed
deriving Repr, DecidableEq

inductive ImageAssetStatus
  | pending
  | uploaded
  | failed
deriving Repr, DecidableEq

inductive NotionPageStatus
  | adding
  | done
  | error
deriving Repr, DecidableEq

/-! ### src/db/index.ts — the State Store

The four tables of config/schema.sql, modelled as lists of rows with
per-table auto-increment id counters (starting at 1, as SQLite rowids
do). The store is local (better-sqlite3), so its operations are modelled
as always-succeeding state mutation; timestamps are natural numbers
(`datetime('now')` becomes an explicit `now` argument). -/

structure JobRow where
  id : Nat
  status : JobStatus
  pagesProcessed : Nat
  pagesSucceeded : Nat
  pagesFailed : Nat
  errorMessage : Option String
  lastSyncTimestamp : Option Nat
  completedAt : Option Nat
deriving Repr, DecidableEq

structure ItemRow where
  id : Nat
  syncJobId : Nat
  notionPageId : String
  wpPostId : Option Nat
  status : JobItemStatus
  errorMessage : Option String
deriving Repr, DecidableEq

structure AssetRow where
  id : Nat
  syncJobItemId : Nat
  notionPageId : String
  notionBlockId : String
  notionUrl : String
  wpMediaId : Option Nat
  wpMediaUrl : Option String
  status : ImageAssetStatus
deriving Repr, DecidableEq

structure MapRow where
  id : Nat
  notionPageId : String
  wpPostId : Nat
deriving Repr, DecidableEq

structure Store where
  jobs : List JobRow
  items : List ItemRow
  assets : List AssetRow
  maps : List MapRow
  nextJobId : Nat
  nextItemId : Nat
  nextAssetId : Nat
  nextMapId : Nat
deriving Repr, DecidableEq

/-- The empty database after schema initialization. -/
def Store.empty : Store := ⟨[], [], [], [], 1, 1, 1, 1⟩

/-- `db.createSyncJob(jobType)`: INSERT a Running job row with zero
counters, returning `lastInsertRowid`. -/
def Store.createSyncJob (s : Store) : Store × Nat :=
  let id := s.nextJobId
  ({ s with
      jobs := s.jobs ++
        [⟨id, JobStatus.running, 0, 0, 0, none, none, none⟩],
      nextJobId := id + 1 }, id)

/-- The optional field set of `db.updateSyncJob` (each `undefined` field
is left out of the UPDATE). -/
structure SyncJobUpdates where
  status : Option JobStatus
  errorMessage : Option String
  pagesProcessed : Option Nat
  pagesSucceeded : Option Nat
  pagesFailed : Option Nat
  lastSyncTimestamp : Option Nat
deriving Repr

/-- Apply `db.updateSyncJob`'s field logic to one row: when a status is
given and is terminal, `completed_at = datetime('now')` is also set. -/
def applyJobUpdates (r : JobRow) (u : SyncJobUpdates) (now : Nat) : JobRow :=
  let r1 := match u.status with
    | none => r
    | some st =>
      { r with
          status := st,
          completedAt :=
            if st = JobStatus.completed ∨ st = JobStatus.failed then some now
            else r.completedAt }
  let r2 := match u.errorMessage with
    | none => r1
    | some m => { r1 with errorMessage := some m }
  let r3 := match u.pagesProcessed with
    | none => r2
    | some n => { r2 with pagesProcessed := n }
  let r4 := match u.pagesSucceeded with
    | none => r3
    | some n => { r3 with pagesSucceeded := n }
  let r5 := match u.pagesFailed with
    | none => r4
    | some n => { r4 with pagesFailed := n }
  match u.lastSyncTimestamp with
  | none => r5
  | some t => { r5 with lastSyncTimestamp := some t }

/-- `db.updateSyncJob(id, updates)`. -/
def Store.updateSyncJob (s : Store) (id : Nat) (u : SyncJobUpdates)
    (now : Nat) : Store :=
  { s with jobs := s.jobs.map (fun r =>
      if r.id = id then applyJobUpdates r u now else r) }

/-- The reduction step of `ORDER BY completed_at DESC LIMIT 1`: keep the
row with the larger `completed_at` (a missing `completed_at` sorts as 0). -/
def pickLatest (best : Option JobRow) (r : JobRow) : Option JobRow :=
  match best with
  | none => some r
  | some b =>
    if b.completedAt.getD 0 < r.completedAt.getD 0 then some r else best

/-- `db.getLastSyncTimestamp()`:
`SELECT last_sync_timestamp FROM sync_jobs WHERE status = 'completed' AND
last_sync_timestamp IS NOT NULL ORDER BY completed_at DESC LIMIT 1`. -/
def Store.getLastSyncTimestamp (s : Store) : Option Nat :=
  let eligible := s.jobs.filter (fun r =>
    r.status == JobStatus.completed && r.lastSyncTimestamp.isSome)
  (eligible.foldl pickLatest none).bind (fun r => r.lastSyncTimestamp)

/-- `db.createSyncJobItem({sync_job_id, notion_page_id, status: Pending})`. -/
def Store.createSyncJobItem (s : Store) (jobId : Nat) (pageId : String) :
    Store × Nat :=
  let id := s.nextItemId
  ({ s with
      items := s.items ++ [⟨id, jobId, pageId, none, JobItemStatus.pending, none⟩],
      nextItemId := id + 1 }, id)

/-- Apply `db.updateSyncJobItem`'s optional-field logic to one row. -/
def applyItemUpdates (r : ItemRow) (wpPostId : Option Nat)
    (status : Option JobItemStatus) (errorMessage : Option String) : ItemRow :=
  let r1 := match wpPostId with
    | none => r
    | some p => { r with wpPostId := some p }
  let r2 := match status with
    | none => r1
    | some st => { r1 with status := st }
  match errorMessage with
  | none => r2
  | some m => { r2 with errorMessage := some m }

/-- `db.updateSyncJobItem(id, updates)`. -/
def Store.updateSyncJobItem (s : Store) (id : Nat) (wpPostId : Option Nat)
    (status : Option JobItemStatus) (errorMessage : Option String) : Store :=
  { s with items := s.items.map (fun r =>
      if r.id = id then applyItemUpdates r wpPostId status errorMessage else r) }

/-- `db.createImageAsset(...)` with status Pending and no media id/url. -/
def Store.createImageAsset (s : Store) (itemId : Nat)
    (pageId blockId url : String) : Store × Nat :=
  let id := s.nextAssetId
  ({ s with
      assets := s.assets ++
        [⟨id, itemId, pageId, blockId, url, none, none, ImageAssetStatus.pending⟩],
      nextAssetId := id + 1 }, id)

/-- Apply `db.updateImageAsset`'s optional-field logic to one row. -/
def applyAssetUpdates (r : AssetRow) (wpMediaId : Option Nat)
    (wpMediaUrl : Option String) (status : Option ImageAssetStatus) : AssetRow :=
  let r1 := match wpMediaId with
    | none => r
    | some m => { r with wpMediaId := some m }
  let r2 := match wpMediaUrl with
    | none => r1
    | some u => { r1 with wpMediaUrl := some u }
  match status with
  | none => r2
  | some st => { r2 with status := st }

/-- `db.updateImageAsset(id, updates)`. -/
def Store.updateImageAsset (s : Store) (id : Nat) (wpMediaId : Option Nat)
    (wpMediaUrl : Option String) (status : Option ImageAssetStatus) : Store :=
  { s with assets := s.assets.map (fun r =>
      if r.id = id then applyAssetUpdates r wpMediaId wpMediaUrl status else r) }

/-- `db.createPagePostMap({notion_page_id, wp_post_id})`. -/
def Store.createPagePostMap (s : Store) (pageId : String) (postId : Nat) :
    Store × Nat :=
  let id := s.nextMapId
  ({ s with
      maps := s.maps ++ [⟨id, pageId, postId⟩],
      nextMapId := id + 1 }, id)

/-- The job row with a given id, if present. -/
def Store.findJob (s : Store) (id : Nat) : Option JobRow :=
  s.jobs.find? (fun r => r.id == id)

/-- The item row with a given id, if present. -/
def Store.findItem (s : Store) (id : Nat) : Option ItemRow :=
  s.items.find? (fun r => r.id == id)

/-- The number of page_post_map rows keyed by a given source page id. -/
def Store.mapCount (s : Store) (pageId : String) : Nat :=
  (s.maps.filter (fun r => r.notionPageId == pageId)).length

/-! ### src/orchestrator/syncOrchestrator.ts — the Page Sync Saga

The saga's remote collaborators are driven by a `SagaEnv` giving the
settled (post-retry) outcome of each outbound call. The outcomes of the
compensation calls are present in the environment but, as in the source,
`rollback` attaches a `.catch` to every one of them, so they never
influence control flow. Calls issued to the outside are recorded as
`CallEvent`s for observability. Concurrent transfers inside one pipeline
batch are serialised in list order (`Promise.allSettled` waits for all of
them; their db rows are independent, so serialisation preserves every
per-row fact). -/

/-- `ImageReference` from src/services/notionService.ts. -/
structure ImageReference where
  blockId : String
  url : String
  altText : Option String
  placeholder : String
deriving Repr, DecidableEq

/-- A successful `wpService.uploadMedia` response (id and url). -/
structure MediaInfo where
  id : Nat
  url : String
deriving Repr, DecidableEq

/-- A successful `wpService.createDraftPost` response. -/
structure PostInfo where
  id : Nat
deriving Repr, DecidableEq

/-- `NotionPage` (the fields the orchestrator uses). -/
structure NotionPage where
  id : String
  title : String
deriving Repr, DecidableEq

/-- The in-memory `SyncJobItem` object threaded through the saga. -/
structure SyncJobItem where
  id : Nat
  pageId : String
  wpPostId : Option Nat
  uploadedMediaIds : List Nat
deriving Repr, DecidableEq

/-- Settled outcome of each outbound call the saga can make, already
folded through the retry policy. Error values are the service-level error
messages. -/
structure SagaEnv where
  getPageHTML : Except String (String × List ImageReference)
  download : ImageReference → Except String DownloadImageResponse
  upload : ImageReference → Except String MediaInfo
  createPost : Except String PostInfo
  setStatusDone : Except String Unit
  deleteMediaOutcome : Nat → Except String Unit
  deletePostOutcome : Nat → Except String Unit
  setStatusErrorOutcome : Except String Unit

/-- An outbound call issued by the orchestrator, in issue order. -/
inductive CallEvent
  | getPageHTML (pageId : String)
  | downloadImage (url : String)
  | uploadMedia (filename : String)
  | createDraftPost (title content : String)
  | setPageStatus (pageId : String) (st : NotionPageStatus)
  | deleteMedia (mediaId : Nat)
  | deletePost (postId : Nat)
deriving Repr, DecidableEq

/-- Mutable context of one saga run: the store, the in-memory item, the
`imageMap` (placeholder → destination url, insertion order) and the
events issued so far. -/
structure SagaState where
  store : Store
  item : SyncJobItem
  imageMap : List (String × String)
  events : List CallEvent

/-- `syncImage(syncJobItem, imageMap, image)`: create the asset row
(Pending), download, compute the upload filename, upload, record the
media id on the item, update the asset row to Uploaded with destination
id/url, and map the placeholder to the destination url. On any failure
the catch block rethrows
`Failed to upload image from block ${image.blockId}` — note it performs
no asset-row update, so a failed transfer's row keeps status Pending. -/
def syncImage (env : SagaEnv) (st : SagaState) (image : ImageReference) :
    SagaState × Except String Unit :=
  let (store1, assetId) :=
    st.store.createImageAsset st.item.id st.item.pageId image.blockId image.url
  let events1 := st.events ++ [CallEvent.downloadImage image.url]
  match env.download image with
  | Except.error _ =>
    (⟨store1, st.item, st.imageMap, events1⟩,
      Except.error ("Failed to upload image from block " ++ image.blockId))
  | Except.ok resp =>
    let filename := syncImageFilename resp
    let events2 := events1 ++ [CallEvent.uploadMedia filename]
    match env.upload image with
    | Except.error _ =>
      (⟨store1, st.item, st.imageMap, events2⟩,
        Except.error ("Failed to upload image from block " ++ image.blockId))
    | Except.ok media =>
      let item2 := { st.item with
          uploadedMediaIds := st.item.uploadedMediaIds ++ [media.id] }
      let store2 := store1.updateImageAsset assetId (some media.id)
        (some media.url) (some ImageAssetStatus.uploaded)
      (⟨store2, item2, st.imageMap ++ [(image.placeholder, media.url)],
        events2⟩, Except.ok ())

/-- The flattened transfer sequence of `syncImages`: every reference is
attempted (`Promise.allSettled` per batch — rejections are collected, not
propagated), and the rejection reasons are gathered in reference order. -/
def syncImagesRun (env : SagaEnv) (st : SagaState) :
    List ImageReference → SagaState × List String
  | [] => (st, [])
  | img :: rest =>
    let (st1, r) := syncImage env st img
    let (st2, errs) := syncImagesRun env st1 rest
    match r with
    | Except.ok _ => (st2, errs)
    | Except.error e => (st2, e :: errs)

/-- `syncImages` as invoked by the saga: run every transfer, then throw
one aggregate error iff at least one transfer failed
(`Failed to sync ${errors.length} images : ${messages joined by '; '}`). -/
def syncImagesSaga (env : SagaEnv) (st : SagaState)
    (images : List ImageReference) : SagaState × Except String Unit :=
  let (st1, errs) := syncImagesRun env st images
  if 0 < errs.length then
    (st1, Except.error ("Failed to sync " ++ toString errs.length
      ++ " images : " ++ String.intercalate "; " errs))
  else
    (st1, Except.ok ())

/-- `wpService.replaceImageUrls(html, imageMap)`: replace every
placeholder occurrence with its destination url. -/
def replaceImageUrls (html : String) (imageMap : List (String × String)) :
    String :=
  imageMap.foldl (fun acc p => acc.replace p.1 p.2) html

/-- The Compensation Engine `rollback(syncJobItem, errorMessage)`: issue a
destination delete for every uploaded media id, a destination post delete
when a post id was recorded (`if (wpPostId)` — falsy for 0), a source
status write to Error, and mark the item row Failed with the message
(`if (jobItemId)` — falsy for 0). Every call is fire-and-forget with a
`.catch` attached, so the outcomes in `env` are ignored and nothing
propagates to the caller. -/
def rollback (_env : SagaEnv) (store : Store) (events : List CallEvent)
    (item : SyncJobItem) (errorMessage : String) : Store × List CallEvent :=
  let events1 := events ++ item.uploadedMediaIds.map CallEvent.deleteMedia
  let events2 := events1 ++ (match item.wpPostId with
    | some p => if p = 0 then [] else [CallEvent.deletePost p]
    | none => [])
  let events3 := events2 ++
    [CallEvent.setPageStatus item.pageId NotionPageStatus.error]
  let store1 :=
    if item.id = 0 then store
    else store.updateSyncJobItem item.id none (some JobItemStatus.failed)
      (some errorMessage)
  (store1, events3)

/-- Result of one `syncPage` run. -/
structure SyncPageResult where
  store : Store
  events : List CallEvent
  result : Except String Unit

/-- `syncPage(jobId, page)`: create the item row (Pending); fetch content
and references; run the pipeline; substitute placeholders; create the
draft post; record its id on the item row; write the page_post_map row;
update the source page status to Done; mark the item Success. Any failure
triggers `rollback` and the original error propagates. -/
def syncPage (env : SagaEnv) (store : Store) (jobId : Nat)
    (page : NotionPage) : SyncPageResult :=
  let (store0, itemId) := store.createSyncJobItem jobId page.id
  let item0 : SyncJobItem := ⟨itemId, page.id, none, []⟩
  let events0 : List CallEvent := [CallEvent.getPageHTML page.id]
  match env.getPageHTML with
  | Except.error e =>
    let (store', events') := rollback env store0 events0 item0 e
    ⟨store', events', Except.error e⟩
  | Except.ok (html, images) =>
    let st0 : SagaState := ⟨store0, item0, [], events0⟩
    let (st1, imgResult) := syncImagesSaga env st0 images
    match imgResult with
    | Except.error e =>
      let (store', events') := rollback env st1.store st1.events st1.item e
      ⟨store', events', Except.error e⟩
    | Except.ok _ =>
      let finalHtml := replaceImageUrls html st1.imageMap
      let events2 := st1.events ++
        [CallEvent.createDraftPost page.title finalHtml]
      match env.createPost with
      | Except.error e =>
        let (store', events') := rollback env st1.store events2 st1.item e
        ⟨store', events', Except.error e⟩
      | Except.ok post =>
        let item2 := { st1.item with wpPostId := some post.id }
        let store2 := st1.store.updateSyncJobItem st1.item.id (some post.id)
          none none
        let (store3, _) := store2.createPagePostMap page.id post.id
        let events3 := events2 ++
          [CallEvent.setPageStatus page.id NotionPageStatus.done]
        match env.setStatusDone with
        | Except.error e =>
          let (store', events') := rollback env store3 events3 item2 e
          ⟨store', events', Except.error e⟩
        | Except.ok _ =>
          let store4 := store3.updateSyncJobItem item2.id none
            (some JobItemStatus.success) none
          ⟨store4, events3, Except.ok ()⟩

/-! ### src/orchestrator/syncOrchestrator.ts — the Sync Coordinator -/

/-- One entry of the coordinator's collected error list. -/
structure SyncError where
  notionPageId : String
  pageTitle : String
  errorMessage : String
deriving Repr, DecidableEq

/-- The in-memory `SyncJob` object the coordinator mutates. -/
structure SyncJobMem where
  jobId : Nat
  status : JobStatus
  pagesProcessed : Nat
  pagesSucceeded : Nat
  pagesFailed : Nat
  errors : List SyncError
deriving Repr, DecidableEq

/-- The payload of one `telegramService.sendSyncNotification` call
(the service itself swallows its own failures, so notifying never
throws). -/
structure NotificationMsg where
  jobId : Nat
  status : JobStatus
  pagesProcessed : Nat
  pagesSucceeded : Nat
  pagesFailed : Nat
  errors : List SyncError
deriving Repr, DecidableEq

/-- The notification the coordinator sends for a job. -/
def notifyOf (j : SyncJobMem) : NotificationMsg :=
  ⟨j.jobId, j.status, j.pagesProcessed, j.pagesSucceeded, j.pagesFailed,
    j.errors⟩

/-- One candidate page together with the saga environment of its run. -/
structure PageSpec where
  page : NotionPage
  env : SagaEnv

/-- Environment of one coordinator run: whether `db.createSyncJob` throws
(the one local-store failure the claims discuss — it happens before the
`try` block), the settled outcome of the candidate query, and the wall
clock used for `datetime('now')` / `new Date().toISOString()` at job
end. -/
structure CoordEnv where
  createJobFails : Option String
  queryOutcome : Except String (List PageSpec)
  now : Nat

/-- Result of the per-item loop `syncPages`. `snapshots` is the in-memory
job state right after each item is handled; `persisted` the
`(pages_processed, pages_succeeded, pages_failed)` triple written to the
job row by `db.updateSyncJob` after each item; `stepResults` the saga
outcome per item. -/
structure SyncPagesResult where
  job : SyncJobMem
  store : Store
  snapshots : List SyncJobMem
  persisted : List (Nat × Nat × Nat)
  stepResults : List (Except String Unit)
  events : List CallEvent

/-- The per-item loop of `syncPages`: increment `pagesProcessed`, run the
saga, on success increment `pagesSucceeded`, on failure increment
`pagesFailed` and push `{notionPageId, pageTitle, errorMessage}`, then
persist the three counters to the job row. Per-item failures never abort
the loop. -/
def syncPagesLoop (now : Nat) :
    Store → SyncJobMem → List PageSpec → SyncPagesResult
  | store, job, [] => ⟨job, store, [], [], [], []⟩
  | store, job, ps :: rest =>
    let job1 := { job with pagesProcessed := job.pagesProcessed + 1 }
    let r := syncPage ps.env store job.jobId ps.page
    let job2 := match r.result with
      | Except.ok _ => { job1 with pagesSucceeded := job1.pagesSucceeded + 1 }
      | Except.error e =>
        { job1 with
            pagesFailed := job1.pagesFailed + 1,
            errors := job1.errors ++ [⟨ps.page.id, ps.page.title, e⟩] }
    let store2 := r.store.updateSyncJob job.jobId
      ⟨none, none, some job2.pagesProcessed, some job2.pagesSucceeded,
        some job2.pagesFailed, none⟩ now
    let lr := syncPagesLoop now store2 job2 rest
    ⟨lr.job, lr.store, job2 :: lr.snapshots,
      (job2.pagesProcessed, job2.pagesSucceeded, job2.pagesFailed)
        :: lr.persisted,
      r.result :: lr.stepResults, r.events ++ lr.events⟩

/-- Result of one `executeSyncJob` run. `consulted` is the watermark
`db.getLastSyncTimestamp()` returned to this run (present iff the read
was reached). -/
structure ExecuteResult where
  store : Store
  result : Except String SyncJobMem
  notifications : List NotificationMsg
  consulted : Option (Option Nat)
  events : List CallEvent

/-- `executeSyncJob(jobType)`: create the job row (outside the `try` — a
failure there re-raises with no job row, no update and no notification);
read the watermark; query candidates; run the per-item loop; set the
terminal status (`Completed` iff zero failures) and persist it together
with `last_sync_timestamp = now`; notify. A query failure is caught:
the job row is marked Failed with the raw message (no
`last_sync_timestamp` write), one notification is sent, and the error is
re-raised. -/
def executeSyncJob (env : CoordEnv) (store : Store) : ExecuteResult :=
  match env.createJobFails with
  | some e => ⟨store, Except.error e, [], none, []⟩
  | none =>
    let (store1, jobId) := store.createSyncJob
    let job0 : SyncJobMem := ⟨jobId, JobStatus.running, 0, 0, 0, []⟩
    let lastSync := store1.getLastSyncTimestamp
    match env.queryOutcome with
    | Except.error e =>
      let job1 := { job0 with
          status := JobStatus.failed,
          errors := [⟨"N/A", "Fatal Error", e⟩] }
      let store2 := store1.updateSyncJob jobId
        ⟨some JobStatus.failed, some e, none, none, none, none⟩ env.now
      ⟨store2, Except.error e, [notifyOf job1], some lastSync, []⟩
    | Except.ok pageSpecs =>
      let lr := syncPagesLoop env.now store1 job0 pageSpecs
      let finalStatus :=
        if lr.job.pagesFailed = 0 then JobStatus.completed else JobStatus.failed
      let job2 := { lr.job with status := finalStatus }
      let store2 := lr.store.updateSyncJob jobId
        ⟨some finalStatus, none, none, none, none, some env.now⟩ env.now
      ⟨store2, Except.ok job2, [notifyOf job2], some lastSync, lr.events⟩

/-! ### Structural lemmas about the saga -/

/-- The settled outcome of one media transfer depends only on the
environment and the reference (the thrown message carries the block id). -/
def transferOutcome (env : SagaEnv) (img : ImageReference) :
    Except String Unit :=
  match env.download img with
  | Except.error _ =>
    Except.error ("Failed to upload image from block " ++ img.blockId)
  | Except.ok _ =>
    match env.upload img with
    | Except.error _ =>
      Except.error ("Failed to upload image from block " ++ img.blockId)
    | Except.ok _ => Except.ok ()

theorem syncImage_snd (env : SagaEnv) (st : SagaState)
    (img : ImageReference) :
    (syncImage env st img).2 = transferOutcome env img := by
  rcases hd : env.download img with e | resp
  · simp [syncImage, transferOutcome, hd]
  · rcases hu : env.upload img with e | media
    · simp [syncImage, transferOutcome, hd, hu]
    · simp [syncImage, transferOutcome, hd, hu]

theorem syncImage_store_fields (env : SagaEnv) (st : SagaState)
    (img : ImageReference) :
    (syncImage env st img).1.store.maps = st.store.maps ∧
    (syncImage env st img).1.store.items = st.store.items ∧
    (syncImage env st img).1.store.jobs = st.store.jobs ∧
    (syncImage env st img).1.store.nextItemId = st.store.nextItemId ∧
    (syncImage env st img).1.store.nextJobId = st.store.nextJobId ∧
    (syncImage env st img).1.store.nextMapId = st.store.nextMapId ∧
    (syncImage env st img).1.item.id = st.item.id ∧
    (syncImage env st img).1.item.pageId = st.item.pageId := by
  rcases hd : env.download img with e | resp
  · simp [syncImage, hd, Store.createImageAsset]
  · rcases hu : env.upload img with e | media
    · simp [syncImage, hd, hu, Store.createImageAsset]
    · simp [syncImage, hd, hu, Store.createImageAsset, Store.updateImageAsset]

theorem syncImagesRun_store_fields (env : SagaEnv) :
    ∀ (imgs : List ImageReference) (st : SagaState),
    (syncImagesRun env st imgs).1.store.maps = st.store.maps ∧
    (syncImagesRun env st imgs).1.store.items = st.store.items ∧
    (syncImagesRun env st imgs).1.store.jobs = st.store.jobs ∧
    (syncImagesRun env st imgs).1.store.nextItemId = st.store.nextItemId ∧
    (syncImagesRun env st imgs).1.store.nextJobId = st.store.nextJobId ∧
    (syncImagesRun env st imgs).1.store.nextMapId = st.store.nextMapId ∧
    (syncImagesRun env st imgs).1.item.id = st.item.id ∧
    (syncImagesRun env st imgs).1.item.pageId = st.item.pageId := by
  intro imgs
  induction imgs with
  | nil => intro st; simp [syncImagesRun]
  | cons img rest ih =>
    intro st
    have h1 := syncImage_store_fields env st img
    have h2 := ih (syncImage env st img).1
    rcases hr : (syncImage env st img).2 with e | u
    · simp only [syncImagesRun, hr]
      exact ⟨h2.1.trans h1.1, h2.2.1.trans h1.2.1, h2.2.2.1.trans h1.2.2.1,
        h2.2.2.2.1.trans h1.2.2.2.1, h2.2.2.2.2.1.trans h1.2.2.2.2.1,
        h2.2.2.2.2.2.1.trans h1.2.2.2.2.2.1,
        h2.2.2.2.2.2.2.1.trans h1.2.2.2.2.2.2.1,
        h2.2.2.2.2.2.2.2.trans h1.2.2.2.2.2.2.2⟩
    · simp only [syncImagesRun, hr]
      exact ⟨h2.1.trans h1.1, h2.2.1.trans h1.2.1, h2.2.2.1.trans h1.2.2.1,
        h2.2.2.2.1.trans h1.2.2.2.1, h2.2.2.2.2.1.trans h1.2.2.2.2.1,
        h2.2.2.2.2.2.1.trans h1.2.2.2.2.2.1,
        h2.2.2.2.2.2.2.1.trans h1.2.2.2.2.2.2.1,
        h2.2.2.2.2.2.2.2.trans h1.2.2.2.2.2.2.2⟩

theorem syncImagesRun_maps (env : SagaEnv) (imgs : List ImageReference)
    (st : SagaState) :
    (syncImagesRun env st imgs).1.store.maps = st.store.maps :=
  (syncImagesRun_store_fields env imgs st).1

theorem syncImagesRun_items (env : SagaEnv) (imgs : List ImageReference)
    (st : SagaState) :
    (syncImagesRun env st imgs).1.store.items = st.store.items :=
  (syncImagesRun_store_fields env imgs st).2.1

theorem syncImagesRun_jobs (env : SagaEnv) (imgs : List ImageReference)
    (st : SagaState) :
    (syncImagesRun env st imgs).1.store.jobs = st.store.jobs :=
  (syncImagesRun_store_fields env imgs st).2.2.1

theorem syncImagesRun_nextItemId (env : SagaEnv) (imgs : List ImageReference)
    (st : SagaState) :
    (syncImagesRun env st imgs).1.store.nextItemId = st.store.nextItemId :=
  (syncImagesRun_store_fields env imgs st).2.2.2.1

theorem syncImagesRun_nextJobId (env : SagaEnv) (imgs : List ImageReference)
    (st : SagaState) :
    (syncImagesRun env st imgs).1.store.nextJobId = st.store.nextJobId :=
  (syncImagesRun_store_fields env imgs st).2.2.2.2.1

theorem syncImagesRun_nextMapId (env : SagaEnv) (imgs : List ImageReference)
    (st : SagaState) :
    (syncImagesRun env st imgs).1.store.nextMapId = st.store.nextMapId :=
  (syncImagesRun_store_fields env imgs st).2.2.2.2.2.1

theorem syncImagesRun_item_id (env : SagaEnv) (imgs : List ImageReference)
    (st : SagaState) :
    (syncImagesRun env st imgs).1.item.id = st.item.id :=
  (syncImagesRun_store_fields env imgs st).2.2.2.2.2.2.1

theorem syncImagesRun_item_pageId (env : SagaEnv) (imgs : List ImageReference)
    (st : SagaState) :
    (syncImagesRun env st imgs).1.item.pageId = st.item.pageId :=
  (syncImagesRun_store_fields env imgs st).2.2.2.2.2.2.2

theorem syncImagesRun_snd (env : SagaEnv) :
    ∀ (imgs : List ImageReference) (st : SagaState),
    (syncImagesRun env st imgs).2 = failuresOf (transferOutcome env) imgs := by
  intro imgs
  induction imgs with
  | nil => intro st; simp [syncImagesRun, failuresOf]
  | cons img rest ih =>
    intro st
    have hs := syncImage_snd env st img
    rcases hr : (syncImage env st img).2 with e | u
    · rw [hr] at hs
      simp only [syncImagesRun, hr, failuresOf, List.filterMap_cons, ← hs,
        ih (syncImage env st img).1]
    · rw [hr] at hs
      simp only [syncImagesRun, hr, failuresOf, List.filterMap_cons, ← hs,
        ih (syncImage env st img).1]

theorem syncImagesSaga_fst (env : SagaEnv) (st : SagaState)
    (imgs : List ImageReference) :
    (syncImagesSaga env st imgs).1 = (syncImagesRun env st imgs).1 := by
  simp only [syncImagesSaga]
  split <;> rfl

theorem syncImagesSaga_snd_ok (env : SagaEnv) (st : SagaState)
    (imgs : List ImageReference) :
    ((syncImagesSaga env st imgs).2 = Except.ok () ↔
      failuresOf (transferOutcome env) imgs = []) := by
  simp only [syncImagesSaga, syncImagesRun_snd env imgs st]
  rcases h : failuresOf (transferOutcome env) imgs with _ | ⟨e, es⟩
  · simp
  · simp

theorem rollback_store_fields (env : SagaEnv) (store : Store)
    (events : List CallEvent) (item : SyncJobItem) (msg : String) :
    (rollback env store events item msg).1.jobs = store.jobs ∧
    (rollback env store events item msg).1.assets = store.assets ∧
    (rollback env store events item msg).1.maps = store.maps ∧
    (rollback env store events item msg).1.nextItemId = store.nextItemId ∧
    (rollback env store events item msg).1.nextJobId = store.nextJobId := by
  by_cases h : item.id = 0
  · simp [rollback, h]
  · simp [rollback, h, Store.updateSyncJobItem]

/-- C9. For every item state and any combination of compensation-call
failure outcomes, `rollback` never propagates an exception to its caller
(its whole result is independent of the compensation outcomes), and it
attempts every applicable sub-step in order: one destination media delete
per uploaded media id, a destination post delete when a post id was
recorded, a source status write to Error, and an item-row update to Failed
carrying the given message — touching no other table. -/
theorem rollback_never_throws_attempts_all
    (env env' : SagaEnv) (store : Store) (events : List CallEvent)
    (item : SyncJobItem) (msg : String) (hid : item.id ≠ 0) :
    rollback env store events item msg
      = rollback env' store events item msg ∧
    (rollback env store events item msg).2 =
      events ++ item.uploadedMediaIds.map CallEvent.deleteMedia
        ++ (match item.wpPostId with
            | some p => if p = 0 then [] else [CallEvent.deletePost p]
            | none => [])
        ++ [CallEvent.setPageStatus item.pageId NotionPageStatus.error] ∧
    (∀ mid ∈ item.uploadedMediaIds,
      CallEvent.deleteMedia mid ∈ (rollback env store events item msg).2) ∧
    (∀ p, item.wpPostId = some p → p ≠ 0 →
      CallEvent.deletePost p ∈ (rollback env store events item msg).2) ∧
    CallEvent.setPageStatus item.pageId NotionPageStatus.error
      ∈ (rollback env store events item msg).2 ∧
    (rollback env store events item msg).1.items =
      store.items.map (fun r =>
        if r.id = item.id
        then applyItemUpdates r none (some JobItemStatus.failed) (some msg)
        else r) ∧
    (rollback env store events item msg).1.jobs = store.jobs ∧
    (rollback env store events item msg).1.assets = store.assets ∧
    (rollback env store events item msg).1.maps = store.maps := by
  have hev : (rollback env store events item msg).2 =
      events ++ item.uploadedMediaIds.map CallEvent.deleteMedia
        ++ (match item.wpPostId with
            | some p => if p = 0 then [] else [CallEvent.deletePost p]
            | none => [])
        ++ [CallEvent.setPageStatus item.pageId NotionPageStatus.error] := rfl
  refine ⟨rfl, hev, ?_, ?_, ?_, ?_, (rollback_store_fields env store events item msg).1,
    (rollback_store_fields env store events item msg).2.1,
    (rollback_store_fields env store events item msg).2.2.1⟩
  · intro mid hmid
    rw [hev]
    simp only [List.mem_append, List.mem_map]
    exact Or.inl (Or.inl (Or.inr ⟨mid, hmid, rfl⟩))
  · intro p hp hp0
    rw [hev, hp]
    simp only [if_neg hp0, List.mem_append, List.mem_singleton]
    exact Or.inl (Or.inr (by simp))
  · rw [hev]
    simp
  · simp [rollback, hid, Store.updateSyncJobItem]

/-- Concrete run exercising `rollback_never_throws_attempts_all`: an item
with two uploaded media (ids 3, 4), a recorded post id 9, against an
environment whose every compensation call fails. -/
theorem rollback_never_throws_attempts_all_witness :
    (5 : Nat) ≠ 0 ∧
    (rollback
      ⟨Except.error "x", fun _ => Except.error "x", fun _ => Except.error "x",
        Except.error "x", Except.error "x", fun _ => Except.error "x",
        fun _ => Except.error "x", Except.error "x"⟩
      ⟨[], [⟨5, 1, "pg", none, JobItemStatus.pending, none⟩], [], [], 2, 6, 1, 1⟩
      [] ⟨5, "pg", some 9, [3, 4]⟩ "boom").2 =
      [CallEvent.deleteMedia 3, CallEvent.deleteMedia 4,
        CallEvent.deletePost 9,
        CallEvent.setPageStatus "pg" NotionPageStatus.error] ∧
    (rollback
      ⟨Except.error "x", fun _ => Except.error "x", fun _ => Except.error "x",
        Except.error "x", Except.error "x", fun _ => Except.error "x",
        fun _ => Except.error "x", Except.error "x"⟩
      ⟨[], [⟨5, 1, "pg", none, JobItemStatus.pending, none⟩], [], [], 2, 6, 1, 1⟩
      [] ⟨5, "pg", some 9, [3, 4]⟩ "boom").1.items =
      [⟨5, 1, "pg", none, JobItemStatus.failed, some "boom"⟩] := by
  refine ⟨by decide, ?_, ?_⟩
  · have h := (rollback_never_throws_attempts_all
      ⟨Except.error "x", fun _ => Except.error "x", fun _ => Except.error "x",
        Except.error "x", Except.error "x", fun _ => Except.error "x",
        fun _ => Except.error "x", Except.error "x"⟩
      ⟨Except.ok ("", []), fun _ => Except.error "y", fun _ => Except.error "y",
        Except.error "y", Except.error "y", fun _ => Except.error "y",
        fun _ => Except.error "y", Except.error "y"⟩
      ⟨[], [⟨5, 1, "pg", none, JobItemStatus.pending, none⟩], [], [], 2, 6, 1, 1⟩
      [] ⟨5, "pg", some 9, [3, 4]⟩ "boom" (by decide)).2.1
    rw [h]
    rfl
  · have h := (rollback_never_throws_attempts_all
      ⟨Except.error "x", fun _ => Except.error "x", fun _ => Except.error "x",
        Except.error "x", Except.error "x", fun _ => Except.error "x",
        fun _ => Except.error "x", Except.error "x"⟩
      ⟨Except.ok ("", []), fun _ => Except.error "y", fun _ => Except.error "y",
        Except.error "y", Except.error "y", fun _ => Except.error "y",
        fun _ => Except.error "y", Except.error "y"⟩
      ⟨[], [⟨5, 1, "pg", none, JobItemStatus.pending, none⟩], [], [], 2, 6, 1, 1⟩
      [] ⟨5, "pg", some 9, [3, 4]⟩ "boom" (by decide)).2.2.2.2.2.1
    rw [h]
    rfl

/-! ### Branch characterization of syncPage -/

/-- The Pending item row `syncPage` inserts first. -/
def itemRow0 (store : Store) (jobId : Nat) (page : NotionPage) : ItemRow :=
  ⟨store.nextItemId, jobId, page.id, none, JobItemStatus.pending, none⟩

/-- The row patch `rollback`'s item update applies. -/
def failPatch (itemId : Nat) (msg : String) : ItemRow → ItemRow :=
  fun r =>
    if r.id = itemId
    then applyItemUpdates r none (some JobItemStatus.failed) (some msg)
    else r

/-- The row patch of the `wp_post_id` update after post creation. -/
def wpPatch (itemId postId : Nat) : ItemRow → ItemRow :=
  fun r =>
    if r.id = itemId then applyItemUpdates r (some postId) none none else r

/-- The row patch of the final Success update. -/
def successPatch (itemId : Nat) : ItemRow → ItemRow :=
  fun r =>
    if r.id = itemId
    then applyItemUpdates r none (some JobItemStatus.success) none
    else r

/-- The aggregate pipeline error message for a given environment and
reference list. -/
def aggErrMsg (env : SagaEnv) (images : List ImageReference) : String :=
  "Failed to sync " ++ toString (failuresOf (transferOutcome env) images).length
    ++ " images : "
    ++ String.intercalate "; " (failuresOf (transferOutcome env) images)

theorem syncPage_case_htmlError (env : SagaEnv) (store : Store)
    (jobId : Nat) (page : NotionPage) (e : String)
    (h : env.getPageHTML = Except.error e) (hpos : store.nextItemId ≠ 0) :
    (syncPage env store jobId page).store.maps = store.maps ∧
    (syncPage env store jobId page).store.jobs = store.jobs ∧
    (syncPage env store jobId page).store.nextJobId = store.nextJobId ∧
    (syncPage env store jobId page).store.items =
      (store.items ++ [itemRow0 store jobId page]).map
        (failPatch store.nextItemId e) ∧
    (syncPage env store jobId page).result = Except.error e := by
  simp [syncPage, h, Store.createSyncJobItem, rollback, hpos,
    Store.updateSyncJobItem, itemRow0, failPatch]

theorem syncPage_case_pipelineError (env : SagaEnv) (store : Store)
    (jobId : Nat) (page : NotionPage) (html : String)
    (images : List ImageReference)
    (h : env.getPageHTML = Except.ok (html, images))
    (hfail : failuresOf (transferOutcome env) images ≠ [])
    (hpos : store.nextItemId ≠ 0) :
    (syncPage env store jobId page).store.maps = store.maps ∧
    (syncPage env store jobId page).store.jobs = store.jobs ∧
    (syncPage env store jobId page).store.nextJobId = store.nextJobId ∧
    (syncPage env store jobId page).store.items =
      (store.items ++ [itemRow0 store jobId page]).map
        (failPatch store.nextItemId (aggErrMsg env images)) ∧
    (syncPage env store jobId page).result
      = Except.error (aggErrMsg env images) := by
  have hlen : 0 < (failuresOf (transferOutcome env) images).length := by
    cases hq : failuresOf (transferOutcome env) images with
    | nil => exact absurd hq hfail
    | cons a l => simp [hq]
  have hsndAll : ∀ st : SagaState, (syncImagesSaga env st images).2
      = Except.error (aggErrMsg env images) := by
    intro st
    simp [syncImagesSaga, syncImagesRun_snd env images st, hlen, aggErrMsg]
  simp only [syncPage, h, Store.createSyncJobItem]
  split
  · rename_i e heq
    rw [hsndAll] at heq
    obtain rfl : aggErrMsg env images = e := by injection heq
    simp [syncImagesSaga_fst, rollback, syncImagesRun_item_id, hpos,
      Store.updateSyncJobItem, syncImagesRun_maps, syncImagesRun_jobs,
      syncImagesRun_nextJobId, syncImagesRun_items, itemRow0, failPatch]
  · rename_i val heq
    rw [hsndAll] at heq
    simp at heq

theorem syncPage_case_postError (env : SagaEnv) (store : Store)
    (jobId : Nat) (page : NotionPage) (html : String)
    (images : List ImageReference) (e : String)
    (h : env.getPageHTML = Except.ok (html, images))
    (hok : failuresOf (transferOutcome env) images = [])
    (hcp : env.createPost = Except.error e)
    (hpos : store.nextItemId ≠ 0) :
    (syncPage env store jobId page).store.maps = store.maps ∧
    (syncPage env store jobId page).store.jobs = store.jobs ∧
    (syncPage env store jobId page).store.nextJobId = store.nextJobId ∧
    (syncPage env store jobId page).store.items =
      (store.items ++ [itemRow0 store jobId page]).map
        (failPatch store.nextItemId e) ∧
    (syncPage env store jobId page).result = Except.error e := by
  have hsndAll : ∀ st : SagaState, (syncImagesSaga env st images).2
      = Except.ok () := by
    intro st
    simp [syncImagesSaga, syncImagesRun_snd env images st, hok]
  simp only [syncPage, h, Store.createSyncJobItem]
  split
  · rename_i e2 heq
    rw [hsndAll] at heq
    simp at heq
  · rename_i val heq
    simp only [hcp]
    simp [syncImagesSaga_fst, rollback, syncImagesRun_item_id, hpos,
      Store.updateSyncJobItem, syncImagesRun_maps, syncImagesRun_jobs,
      syncImagesRun_nextJobId, syncImagesRun_items, itemRow0, failPatch]

theorem syncPage_case_doneError (env : SagaEnv) (store : Store)
    (jobId : Nat) (page : NotionPage) (html : String)
    (images : List ImageReference) (post : PostInfo) (e : String)
    (h : env.getPageHTML = Except.ok (html, images))
    (hok : failuresOf (transferOutcome env) images = [])
    (hcp : env.createPost = Except.ok post)
    (hsd : env.setStatusDone = Except.error e)
    (hpos : store.nextItemId ≠ 0) :
    (syncPage env store jobId page).store.maps
      = store.maps ++ [⟨store.nextMapId, page.id, post.id⟩] ∧
    (syncPage env store jobId page).store.jobs = store.jobs ∧
    (syncPage env store jobId page).store.nextJobId = store.nextJobId ∧
    (syncPage env store jobId page).store.items =
      ((store.items ++ [itemRow0 store jobId page]).map
        (wpPatch store.nextItemId post.id)).map
          (failPatch store.nextItemId e) ∧
    (syncPage env store jobId page).result = Except.error e := by
  have hsndAll : ∀ st : SagaState, (syncImagesSaga env st images).2
      = Except.ok () := by
    intro st
    simp [syncImagesSaga, syncImagesRun_snd env images st, hok]
  simp only [syncPage, h, Store.createSyncJobItem]
  split
  · rename_i e2 heq
    rw [hsndAll] at heq
    simp at heq
  · rename_i val heq
    simp only [hcp, hsd]
    simp [syncImagesSaga_fst, rollback, syncImagesRun_item_id, hpos,
      Store.updateSyncJobItem, Store.createPagePostMap,
      syncImagesRun_maps, syncImagesRun_jobs, syncImagesRun_nextJobId,
      syncImagesRun_nextMapId, syncImagesRun_items, itemRow0, failPatch,
      wpPatch]

theorem syncPage_case_success (env : SagaEnv) (store : Store)
    (jobId : Nat) (page : NotionPage) (html : String)
    (images : List ImageReference) (post : PostInfo)
    (h : env.getPageHTML = Except.ok (html, images))
    (hok : failuresOf (transferOutcome env) images = [])
    (hcp : env.createPost = Except.ok post)
    (hsd : env.setStatusDone = Except.ok ()) :
    (syncPage env store jobId page).store.maps
      = store.maps ++ [⟨store.nextMapId, page.id, post.id⟩] ∧
    (syncPage env store jobId page).store.jobs = store.jobs ∧
    (syncPage env store jobId page).store.nextJobId = store.nextJobId ∧
    (syncPage env store jobId page).store.items =
      ((store.items ++ [itemRow0 store jobId page]).map
        (wpPatch store.nextItemId post.id)).map
          (successPatch store.nextItemId) ∧
    (syncPage env store jobId page).result = Except.ok () := by
  have hsndAll : ∀ st : SagaState, (syncImagesSaga env st images).2
      = Except.ok () := by
    intro st
    simp [syncImagesSaga, syncImagesRun_snd env images st, hok]
  simp only [syncPage, h, Store.createSyncJobItem]
  split
  · rename_i e2 heq
    rw [hsndAll] at heq
    simp at heq
  · rename_i val heq
    simp only [hcp, hsd]
    simp [syncImagesSaga_fst, syncImagesRun_item_id,
      Store.updateSyncJobItem, Store.createPagePostMap,
      syncImagesRun_maps, syncImagesRun_jobs, syncImagesRun_nextJobId,
      syncImagesRun_nextMapId, syncImagesRun_items, itemRow0,
      successPatch, wpPatch]

/-! ### C2 — the ItemPostMap (page_post_map) invariant -/

theorem applyItemUpdates_id (r : ItemRow) (w : Option Nat)
    (st : Option JobItemStatus) (m : Option String) :
    (applyItemUpdates r w st m).id = r.id := by
  cases w <;> cases st <;> cases m <;> rfl

theorem failPatch_id (i : Nat) (m : String) (r : ItemRow) :
    (failPatch i m r).id = r.id := by
  by_cases h : r.id = i <;> simp [failPatch, h, applyItemUpdates_id]

theorem wpPatch_id (i p : Nat) (r : ItemRow) :
    (wpPatch i p r).id = r.id := by
  by_cases h : r.id = i <;> simp [wpPatch, h, applyItemUpdates_id]

theorem successPatch_id (i : Nat) (r : ItemRow) :
    (successPatch i r).id = r.id := by
  by_cases h : r.id = i <;> simp [successPatch, h, applyItemUpdates_id]

theorem find_in_patched (olds : List ItemRow) (row0 : ItemRow)
    (F : ItemRow → ItemRow) (itemId : Nat)
    (hfresh : ∀ r ∈ olds, r.id ≠ itemId) (hrow : row0.id = itemId)
    (hpres : ∀ r, (F r).id = r.id) :
    ((olds ++ [row0]).map F).find? (fun r => r.id == itemId)
      = some (F row0) := by
  induction olds with
  | nil =>
    rw [List.nil_append, List.map_cons, List.map_nil,
      List.find?_cons_of_pos]
    simp [hpres row0, hrow]
  | cons r rs ih =>
    rw [List.cons_append, List.map_cons, List.find?_cons_of_neg]
    · exact ih (fun x hx => hfresh x (List.mem_cons_of_mem r hx))
    · simp only [hpres r, beq_iff_eq]
      exact hfresh r (List.mem_cons_self r rs)

theorem mapCount_congr {s t : Store} (h : s.maps = t.maps) (pid : String) :
    s.mapCount pid = t.mapCount pid := by
  simp [Store.mapCount, h]

theorem mapCount_snoc {s t : Store} {i po : Nat} {pid : String}
    (h : t.maps = s.maps ++ [⟨i, pid, po⟩]) :
    t.mapCount pid = s.mapCount pid + 1 := by
  simp [Store.mapCount, h, List.filter_append]

/-- The status of the item row with the given id. -/
def itemStatusIn (s : Store) (itemId : Nat) : Option JobItemStatus :=
  (s.findItem itemId).map (fun r => r.status)

/-- The saga reached its map-write step: the content fetch, every media
transfer, and the destination resource creation all succeeded. -/
def reachedMapWrite (env : SagaEnv) : Prop :=
  ∃ html images post, env.getPageHTML = Except.ok (html, images) ∧
    failuresOf (transferOutcome env) images = [] ∧
    env.createPost = Except.ok post

/-- C2 counterexample. An item whose saga fails at the source write-back
step (the Notion status update to Done, issued after the page_post_map
row is written) ends with SyncItem status Failed AND an ItemPostMap row:
the claim that no failed-saga item has a row is false on this run. -/
theorem failed_item_with_map_row :
    (syncPage
      ⟨Except.ok ("<p>hi</p>", []), fun _ => Except.error "unused",
        fun _ => Except.error "unused", Except.ok ⟨7⟩,
        Except.error "Failed to update page status: boom",
        fun _ => Except.ok (), fun _ => Except.ok (), Except.ok ()⟩
      Store.empty 1 ⟨"pg-1", "Hello"⟩).result
      = Except.error "Failed to update page status: boom" ∧
    itemStatusIn (syncPage
      ⟨Except.ok ("<p>hi</p>", []), fun _ => Except.error "unused",
        fun _ => Except.error "unused", Except.ok ⟨7⟩,
        Except.error "Failed to update page status: boom",
        fun _ => Except.ok (), fun _ => Except.ok (), Except.ok ()⟩
      Store.empty 1 ⟨"pg-1", "Hello"⟩).store 1
      = some JobItemStatus.failed ∧
    (syncPage
      ⟨Except.ok ("<p>hi</p>", []), fun _ => Except.error "unused",
        fun _ => Except.error "unused", Except.ok ⟨7⟩,
        Except.error "Failed to update page status: boom",
        fun _ => Except.ok (), fun _ => Except.ok (), Except.ok ()⟩
      Store.empty 1 ⟨"pg-1", "Hello"⟩).store.mapCount "pg-1" = 1 := by
  refine ⟨rfl, rfl, rfl⟩

/-- C2 as amended. In one saga run starting from a store with no
page_post_map row for the page and fresh item ids: the run creates
exactly one page_post_map row iff the saga reaches the map-write step
(content fetch, all media transfers, and resource creation succeed);
hence every item whose SyncItem status reaches Success has exactly one
row, an item failing before resource creation has none, but an item
failing at a later step (the source status write-back) retains the row
despite its Failed status. -/
theorem map_row_iff_reached_map_write (env : SagaEnv) (store : Store)
    (jobId : Nat) (page : NotionPage)
    (hfresh : ∀ r ∈ store.items, r.id ≠ store.nextItemId)
    (hzero : store.mapCount page.id = 0)
    (hpos : store.nextItemId ≠ 0) :
    ((syncPage env store jobId page).store.mapCount page.id = 1 ↔
      reachedMapWrite env) ∧
    (¬ reachedMapWrite env →
      (syncPage env store jobId page).store.mapCount page.id = 0) ∧
    (itemStatusIn (syncPage env store jobId page).store store.nextItemId
        = some JobItemStatus.success →
      (syncPage env store jobId page).store.mapCount page.id = 1) ∧
    (itemStatusIn (syncPage env store jobId page).store store.nextItemId
        = some JobItemStatus.success ↔
      (reachedMapWrite env ∧ env.setStatusDone = Except.ok ())) := by
  have hrow0 : (itemRow0 store jobId page).id = store.nextItemId := rfl
  rcases hge : env.getPageHTML with e | p
  · -- content fetch fails: no row, item Failed
    have hb := syncPage_case_htmlError env store jobId page e hge hpos
    have hnr : ¬ reachedMapWrite env := by
      rintro ⟨html, images, post, h1, h2, h3⟩
      rw [hge] at h1
      exact Except.noConfusion h1
    have hcount : (syncPage env store jobId page).store.mapCount page.id = 0 := by
      rw [mapCount_congr hb.1]
      exact hzero
    have hstat : itemStatusIn (syncPage env store jobId page).store
        store.nextItemId = some JobItemStatus.failed := by
      rw [itemStatusIn, Store.findItem, hb.2.2.2.1,
        find_in_patched store.items (itemRow0 store jobId page) _
          store.nextItemId hfresh hrow0 (failPatch_id store.nextItemId e)]
      simp [failPatch, itemRow0, applyItemUpdates]
    refine ⟨⟨fun h1 => absurd (hcount ▸ h1) (by omega), fun hr => absurd hr hnr⟩,
      fun _ => hcount, fun hs => ?_, ⟨fun hs => ?_, fun ⟨hr, _⟩ => absurd hr hnr⟩⟩
    · rw [hstat] at hs
      exact absurd hs (by simp)
    · rw [hstat] at hs
      exact absurd hs (by simp)
  · obtain ⟨html, images⟩ := p
    by_cases hfl : failuresOf (transferOutcome env) images = []
    · rcases hcp : env.createPost with e | post
      · -- resource creation fails: no row, item Failed
        have hb := syncPage_case_postError env store jobId page html images e
          hge hfl hcp hpos
        have hnr : ¬ reachedMapWrite env := by
          rintro ⟨html2, images2, post2, h1, h2, h3⟩
          rw [hcp] at h3
          exact Except.noConfusion h3
        have hcount : (syncPage env store jobId page).store.mapCount page.id
            = 0 := by
          rw [mapCount_congr hb.1]
          exact hzero
        have hstat : itemStatusIn (syncPage env store jobId page).store
            store.nextItemId = some JobItemStatus.failed := by
          rw [itemStatusIn, Store.findItem, hb.2.2.2.1,
            find_in_patched store.items (itemRow0 store jobId page) _
              store.nextItemId hfresh hrow0 (failPatch_id store.nextItemId e)]
          simp [failPatch, itemRow0, applyItemUpdates]
        refine ⟨⟨fun h1 => absurd (hcount ▸ h1) (by omega),
          fun hr => absurd hr hnr⟩,
          fun _ => hcount, fun hs => ?_,
          ⟨fun hs => ?_, fun ⟨hr, _⟩ => absurd hr hnr⟩⟩
        · rw [hstat] at hs
          exact absurd hs (by simp)
        · rw [hstat] at hs
          exact absurd hs (by simp)
      · have hr : reachedMapWrite env := ⟨html, images, post, hge, hfl, hcp⟩
        rcases hsd : env.setStatusDone with e | u
        · -- write-back fails after the map write: row exists, item Failed
          have hb := syncPage_case_doneError env store jobId page html images
            post e hge hfl hcp hsd hpos
          have hcount : (syncPage env store jobId page).store.mapCount page.id
              = 1 := by
            rw [mapCount_snoc hb.1, hzero]
          have hstat : itemStatusIn (syncPage env store jobId page).store
              store.nextItemId = some JobItemStatus.failed := by
            rw [itemStatusIn, Store.findItem, hb.2.2.2.1, List.map_map,
              find_in_patched store.items (itemRow0 store jobId page)
                (failPatch store.nextItemId e ∘ wpPatch store.nextItemId post.id)
                store.nextItemId hfresh hrow0
                (fun r => (failPatch_id store.nextItemId e _).trans
                  (wpPatch_id store.nextItemId post.id r))]
            simp [failPatch, wpPatch, itemRow0, applyItemUpdates]
          refine ⟨⟨fun _ => hr, fun _ => hcount⟩, fun hn => absurd hr hn,
            fun _ => hcount, ⟨fun hs => ?_, fun ⟨_, hd⟩ => ?_⟩⟩
          · rw [hstat] at hs
            exact absurd hs (by simp)
          · exact Except.noConfusion hd
        · -- full success: row exists, item Success
          have hb := syncPage_case_success env store jobId page html images
            post hge hfl hcp hsd
          have hcount : (syncPage env store jobId page).store.mapCount page.id
              = 1 := by
            rw [mapCount_snoc hb.1, hzero]
          have hstat : itemStatusIn (syncPage env store jobId page).store
              store.nextItemId = some JobItemStatus.success := by
            rw [itemStatusIn, Store.findItem, hb.2.2.2.1, List.map_map,
              find_in_patched store.items (itemRow0 store jobId page)
                (successPatch store.nextItemId ∘ wpPatch store.nextItemId post.id)
                store.nextItemId hfresh hrow0
                (fun r => (successPatch_id store.nextItemId _).trans
                  (wpPatch_id store.nextItemId post.id r))]
            simp [successPatch, wpPatch, itemRow0, applyItemUpdates]
          exact ⟨⟨fun _ => hr, fun _ => hcount⟩, fun hn => absurd hr hn,
            fun _ => hcount, ⟨fun _ => ⟨hr, rfl⟩, fun _ => hstat⟩⟩
    · -- a media transfer fails: no row, item Failed
      have hb := syncPage_case_pipelineError env store jobId page html images
        hge hfl hpos
      have hnr : ¬ reachedMapWrite env := by
        rintro ⟨html2, images2, post2, h1, h2, h3⟩
        rw [hge] at h1
        obtain ⟨rfl, rfl⟩ : html = html2 ∧ images = images2 := by
          have := Except.ok.inj h1
          exact ⟨congrArg Prod.fst this, congrArg Prod.snd this⟩
        exact hfl h2
      have hcount : (syncPage env store jobId page).store.mapCount page.id
          = 0 := by
        rw [mapCount_congr hb.1]
        exact hzero
      have hstat : itemStatusIn (syncPage env store jobId page).store
          store.nextItemId = some JobItemStatus.failed := by
        rw [itemStatusIn, Store.findItem, hb.2.2.2.1,
          find_in_patched store.items (itemRow0 store jobId page) _
            store.nextItemId hfresh hrow0
            (failPatch_id store.nextItemId (aggErrMsg env images))]
        simp [failPatch, itemRow0, applyItemUpdates]
      refine ⟨⟨fun h1 => absurd (hcount ▸ h1) (by omega),
        fun hr2 => absurd hr2 hnr⟩,
        fun _ => hcount, fun hs => ?_, ⟨fun hs => ?_, fun ⟨hr2, _⟩ => absurd hr2 hnr⟩⟩
      · rw [hstat] at hs
        exact absurd hs (by simp)
      · rw [hstat] at hs
        exact absurd hs (by simp)

/-- Concrete run exercising `map_row_iff_reached_map_write`: a fully
successful saga on an empty store creates exactly one row and marks the
item Success. -/
theorem map_row_iff_reached_map_write_witness :
    ((∀ r ∈ Store.empty.items, r.id ≠ Store.empty.nextItemId) ∧
      Store.empty.mapCount "pg-1" = 0 ∧ Store.empty.nextItemId ≠ 0) ∧
    (syncPage
      ⟨Except.ok ("<p>hi</p>", []), fun _ => Except.error "unused",
        fun _ => Except.error "unused", Except.ok ⟨7⟩, Except.ok (),
        fun _ => Except.ok (), fun _ => Except.ok (), Except.ok ()⟩
      Store.empty 1 ⟨"pg-1", "Hello"⟩).store.mapCount "pg-1" = 1 ∧
    itemStatusIn (syncPage
      ⟨Except.ok ("<p>hi</p>", []), fun _ => Except.error "unused",
        fun _ => Except.error "unused", Except.ok ⟨7⟩, Except.ok (),
        fun _ => Except.ok (), fun _ => Except.ok (), Except.ok ()⟩
      Store.empty 1 ⟨"pg-1", "Hello"⟩).store 1
      = some JobItemStatus.success := by
  refine ⟨⟨by simp [Store.empty], rfl, by decide⟩, ?_, ?_⟩
  · exact (map_row_iff_reached_map_write
      ⟨Except.ok ("<p>hi</p>", []), fun _ => Except.error "unused",
        fun _ => Except.error "unused", Except.ok ⟨7⟩, Except.ok (),
        fun _ => Except.ok (), fun _ => Except.ok (), Except.ok ()⟩
      Store.empty 1 ⟨"pg-1", "Hello"⟩ (by simp [Store.empty]) rfl
      (by decide)).1.mpr ⟨"<p>hi</p>", [], ⟨7⟩, rfl, rfl, rfl⟩
  · exact (map_row_iff_reached_map_write
      ⟨Except.ok ("<p>hi</p>", []), fun _ => Except.error "unused",
        fun _ => Except.error "unused", Except.ok ⟨7⟩, Except.ok (),
        fun _ => Except.ok (), fun _ => Except.ok (), Except.ok ()⟩
      Store.empty 1 ⟨"pg-1", "Hello"⟩ (by simp [Store.empty]) rfl
      (by decide)).2.2.2.mpr ⟨⟨"<p>hi</p>", [], ⟨7⟩, rfl, rfl, rfl⟩, rfl⟩

/-! ### C7 — end state of an item whose only media transfer fails -/

/-- C7 counterexample. In the literal failure scenario (item `P2`, one
media reference, upload failing on every attempt), the MediaAsset row
does NOT end with status Failed: `syncImage`'s catch block rethrows
without updating the asset row, so it stays Pending. -/
theorem media_asset_stays_pending :
    ((syncPage
      ⟨Except.ok ("<p>img</p>", [⟨"blk-1", "https://x/m.png", none, "ph-1"⟩]),
        fun _ => Except.ok ⟨[9], "aabbccddeeff00112233", "image/png", 1⟩,
        fun _ => Except.error "WordPress media upload failed: HTTP 500",
        Except.ok ⟨7⟩, Except.ok (), fun _ => Except.ok (),
        fun _ => Except.ok (), Except.ok ()⟩
      Store.empty 1 ⟨"P2", "Page 2"⟩).store.assets.map (fun a => a.status))
      = [ImageAssetStatus.pending] ∧
    ¬ ((syncPage
      ⟨Except.ok ("<p>img</p>", [⟨"blk-1", "https://x/m.png", none, "ph-1"⟩]),
        fun _ => Except.ok ⟨[9], "aabbccddeeff00112233", "image/png", 1⟩,
        fun _ => Except.error "WordPress media upload failed: HTTP 500",
        Except.ok ⟨7⟩, Except.ok (), fun _ => Except.ok (),
        fun _ => Except.ok (), Except.ok ()⟩
      Store.empty 1 ⟨"P2", "Page 2"⟩).store.assets.map (fun a => a.status))
      = [ImageAssetStatus.failed] := by
  refine ⟨rfl, by decide⟩

/-- C7 as amended. In the literal failure scenario (item `P2`, one media
reference, upload failing on every attempt): the saga throws the
aggregate pipeline error; the MediaAsset row stays Pending (not Failed —
the Failed asset status is never written by the code); the destination
resource is never created (no createDraftPost call is issued); the source
status write to Error is issued; the SyncItem ends Failed; and no
ItemPostMap row exists for `P2`. -/
theorem media_failure_end_state :
    (syncPage
      ⟨Except.ok ("<p>img</p>", [⟨"blk-1", "https://x/m.png", none, "ph-1"⟩]),
        fun _ => Except.ok ⟨[9], "aabbccddeeff00112233", "image/png", 1⟩,
        fun _ => Except.error "WordPress media upload failed: HTTP 500",
        Except.ok ⟨7⟩, Except.ok (), fun _ => Except.ok (),
        fun _ => Except.ok (), Except.ok ()⟩
      Store.empty 1 ⟨"P2", "Page 2"⟩).events =
      [CallEvent.getPageHTML "P2",
        CallEvent.downloadImage "https://x/m.png",
        CallEvent.uploadMedia "undefined-aabbccddeeff0011.png",
        CallEvent.setPageStatus "P2" NotionPageStatus.error] ∧
    (∀ t c, CallEvent.createDraftPost t c ∉ (syncPage
      ⟨Except.ok ("<p>img</p>", [⟨"blk-1", "https://x/m.png", none, "ph-1"⟩]),
        fun _ => Except.ok ⟨[9], "aabbccddeeff00112233", "image/png", 1⟩,
        fun _ => Except.error "WordPress media upload failed: HTTP 500",
        Except.ok ⟨7⟩, Except.ok (), fun _ => Except.ok (),
        fun _ => Except.ok (), Except.ok ()⟩
      Store.empty 1 ⟨"P2", "Page 2"⟩).events) ∧
    ((syncPage
      ⟨Except.ok ("<p>img</p>", [⟨"blk-1", "https://x/m.png", none, "ph-1"⟩]),
        fun _ => Except.ok ⟨[9], "aabbccddeeff00112233", "image/png", 1⟩,
        fun _ => Except.error "WordPress media upload failed: HTTP 500",
        Except.ok ⟨7⟩, Except.ok (), fun _ => Except.ok (),
        fun _ => Except.ok (), Except.ok ()⟩
      Store.empty 1 ⟨"P2", "Page 2"⟩).store.assets.map (fun a => a.status))
      = [ImageAssetStatus.pending] ∧
    itemStatusIn (syncPage
      ⟨Except.ok ("<p>img</p>", [⟨"blk-1", "https://x/m.png", none, "ph-1"⟩]),
        fun _ => Except.ok ⟨[9], "aabbccddeeff00112233", "image/png", 1⟩,
        fun _ => Except.error "WordPress media upload failed: HTTP 500",
        Except.ok ⟨7⟩, Except.ok (), fun _ => Except.ok (),
        fun _ => Except.ok (), Except.ok ()⟩
      Store.empty 1 ⟨"P2", "Page 2"⟩).store 1 = some JobItemStatus.failed ∧
    (syncPage
      ⟨Except.ok ("<p>img</p>", [⟨"blk-1", "https://x/m.png", none, "ph-1"⟩]),
        fun _ => Except.ok ⟨[9], "aabbccddeeff00112233", "image/png", 1⟩,
        fun _ => Except.error "WordPress media upload failed: HTTP 500",
        Except.ok ⟨7⟩, Except.ok (), fun _ => Except.ok (),
        fun _ => Except.ok (), Except.ok ()⟩
      Store.empty 1 ⟨"P2", "Page 2"⟩).store.mapCount "P2" = 0 ∧
    (syncPage
      ⟨Except.ok ("<p>img</p>", [⟨"blk-1", "https://x/m.png", none, "ph-1"⟩]),
        fun _ => Except.ok ⟨[9], "aabbccddeeff00112233", "image/png", 1⟩,
        fun _ => Except.error "WordPress media upload failed: HTTP 500",
        Except.ok ⟨7⟩, Except.ok (), fun _ => Except.ok (),
        fun _ => Except.ok (), Except.ok ()⟩
      Store.empty 1 ⟨"P2", "Page 2"⟩).result = Except.error
        "Failed to sync 1 images : Failed to upload image from block blk-1" := by
  have hev : (syncPage
      ⟨Except.ok ("<p>img</p>", [⟨"blk-1", "https://x/m.png", none, "ph-1"⟩]),
        fun _ => Except.ok ⟨[9], "aabbccddeeff00112233", "image/png", 1⟩,
        fun _ => Except.error "WordPress media upload failed: HTTP 500",
        Except.ok ⟨7⟩, Except.ok (), fun _ => Except.ok (),
        fun _ => Except.ok (), Except.ok ()⟩
      Store.empty 1 ⟨"P2", "Page 2"⟩).events =
      [CallEvent.getPageHTML "P2",
        CallEvent.downloadImage "https://x/m.png",
        CallEvent.uploadMedia "undefined-aabbccddeeff0011.png",
        CallEvent.setPageStatus "P2" NotionPageStatus.error] := rfl
  refine ⟨hev, ?_, rfl, rfl, rfl, rfl⟩
  intro t c h
  rw [hev] at h
  simp at h

/-! ### Preservation of the jobs table through one saga run -/

theorem rollback_jobs (env : SagaEnv) (store : Store)
    (events : List CallEvent) (item : SyncJobItem) (msg : String) :
    (rollback env store events item msg).1.jobs = store.jobs :=
  (rollback_store_fields env store events item msg).1

theorem rollback_nextJobId (env : SagaEnv) (store : Store)
    (events : List CallEvent) (item : SyncJobItem) (msg : String) :
    (rollback env store events item msg).1.nextJobId = store.nextJobId :=
  (rollback_store_fields env store events item msg).2.2.2.2

theorem syncPage_jobs (env : SagaEnv) (store : Store) (jobId : Nat)
    (page : NotionPage) :
    (syncPage env store jobId page).store.jobs = store.jobs ∧
    (syncPage env store jobId page).store.nextJobId = store.nextJobId := by
  rcases hge : env.getPageHTML with e | p
  · simp [syncPage, hge, Store.createSyncJobItem, rollback_jobs,
      rollback_nextJobId]
  · obtain ⟨html, images⟩ := p
    simp only [syncPage, hge, Store.createSyncJobItem]
    split
    · rename_i e heq
      simp [rollback_jobs, rollback_nextJobId, syncImagesSaga_fst,
        syncImagesRun_jobs, syncImagesRun_nextJobId]
    · rename_i u heq
      rcases hcp : env.createPost with e | post
      · simp [hcp, rollback_jobs, rollback_nextJobId, syncImagesSaga_fst,
          syncImagesRun_jobs, syncImagesRun_nextJobId]
      · rcases hsd : env.setStatusDone with e | u2
        · simp [hcp, hsd, rollback_jobs, rollback_nextJobId,
            syncImagesSaga_fst, syncImagesRun_jobs, syncImagesRun_nextJobId,
            Store.updateSyncJobItem, Store.createPagePostMap]
        · simp [hcp, hsd, syncImagesSaga_fst, syncImagesRun_jobs,
            syncImagesRun_nextJobId, Store.updateSyncJobItem,
            Store.createPagePostMap]

/-! ### C10 — the per-item loop counters -/

/-- The error entries the loop collects: one per failed page, carrying
that page's id, title, and the saga's error message. -/
def collectErrors : List PageSpec → List (Except String Unit) → List SyncError
  | [], _ => []
  | _ :: _, [] => []
  | ps :: rest, r :: rs =>
    match r with
    | Except.ok _ => collectErrors rest rs
    | Except.error e =>
      ⟨ps.page.id, ps.page.title, e⟩ :: collectErrors rest rs

theorem syncPagesLoop_spec (now : Nat) (pages : List PageSpec) :
    ∀ (store : Store) (job : SyncJobMem),
    job.pagesProcessed = job.pagesSucceeded + job.pagesFailed →
    job.errors.length = job.pagesFailed →
    (syncPagesLoop now store job pages).snapshots.length = pages.length ∧
    (syncPagesLoop now store job pages).stepResults.length = pages.length ∧
    (syncPagesLoop now store job pages).persisted
      = (syncPagesLoop now store job pages).snapshots.map
          (fun j => (j.pagesProcessed, j.pagesSucceeded, j.pagesFailed)) ∧
    (∀ j ∈ (syncPagesLoop now store job pages).snapshots,
      j.pagesProcessed = j.pagesSucceeded + j.pagesFailed ∧
      j.errors.length = j.pagesFailed) ∧
    (syncPagesLoop now store job pages).job.errors
      = job.errors ++ collectErrors pages
          (syncPagesLoop now store job pages).stepResults ∧
    (syncPagesLoop now store job pages).job.pagesProcessed
      = (syncPagesLoop now store job pages).job.pagesSucceeded
        + (syncPagesLoop now store job pages).job.pagesFailed ∧
    (syncPagesLoop now store job pages).job.errors.length
      = (syncPagesLoop now store job pages).job.pagesFailed ∧
    (syncPagesLoop now store job pages).job.jobId = job.jobId := by
  induction pages with
  | nil =>
    intro store job h1 h2
    simp [syncPagesLoop, collectErrors, h1, h2]
  | cons ps rest ih =>
    intro store job h1 h2
    rcases hr : (syncPage ps.env store job.jobId ps.page).result with e | u
    · simp only [syncPagesLoop, hr]
      obtain ⟨i1, i2, i3, i4, i5, i6, i7, i8⟩ :=
        ih ((syncPage ps.env store job.jobId ps.page).store.updateSyncJob
            job.jobId
            ⟨none, none, some (job.pagesProcessed + 1),
              some job.pagesSucceeded, some (job.pagesFailed + 1), none⟩ now)
          ⟨job.jobId, job.status, job.pagesProcessed + 1, job.pagesSucceeded,
            job.pagesFailed + 1,
            job.errors ++ [⟨ps.page.id, ps.page.title, e⟩]⟩
          (by simp only []; omega) (by simp [h2])
      refine ⟨by simp [i1], by simp [i2], ?_, ?_, ?_, i6, i7, i8⟩
      · simp only [List.map_cons]
        exact congrArg _ i3
      · intro j hj
        rcases List.mem_cons.mp hj with rfl | hj2
        · exact ⟨by simp only []; omega, by simp [h2]⟩
        · exact i4 j hj2
      · rw [i5]
        simp [collectErrors, List.append_assoc]
    · simp only [syncPagesLoop, hr]
      obtain ⟨i1, i2, i3, i4, i5, i6, i7, i8⟩ :=
        ih ((syncPage ps.env store job.jobId ps.page).store.updateSyncJob
            job.jobId
            ⟨none, none, some (job.pagesProcessed + 1),
              some (job.pagesSucceeded + 1), some job.pagesFailed, none⟩ now)
          ⟨job.jobId, job.status, job.pagesProcessed + 1,
            job.pagesSucceeded + 1, job.pagesFailed, job.errors⟩
          (by simp only []; omega) (by simp [h2])
      refine ⟨by simp [i1], by simp [i2], ?_, ?_, ?_, i6, i7, i8⟩
      · simp only [List.map_cons]
        exact congrArg _ i3
      · intro j hj
        rcases List.mem_cons.mp hj with rfl | hj2
        · exact ⟨by simp only []; omega, by simp [h2]⟩
        · exact i4 j hj2
      · rw [i5]
        simp [collectErrors]

/-- C10. Starting from the fresh job object the coordinator creates
(zero counters, empty error list), after each item the snapshot satisfies
`pagesProcessed = pagesSucceeded + pagesFailed` with exactly
`pagesFailed` collected errors; the final error list has one entry per
failed item carrying that item's page id, title and error message; and
the three counters are persisted to the job row after every item (the
persisted-write trace equals the snapshot counters, one write per
item). -/
theorem coordinator_counters_invariant (now : Nat) (store : Store)
    (jobId : Nat) (pages : List PageSpec) :
    (syncPagesLoop now store ⟨jobId, JobStatus.running, 0, 0, 0, []⟩
      pages).snapshots.length = pages.length ∧
    (syncPagesLoop now store ⟨jobId, JobStatus.running, 0, 0, 0, []⟩
      pages).persisted.length = pages.length ∧
    (syncPagesLoop now store ⟨jobId, JobStatus.running, 0, 0, 0, []⟩
      pages).persisted
      = (syncPagesLoop now store ⟨jobId, JobStatus.running, 0, 0, 0, []⟩
          pages).snapshots.map
            (fun j => (j.pagesProcessed, j.pagesSucceeded, j.pagesFailed)) ∧
    (∀ j ∈ (syncPagesLoop now store ⟨jobId, JobStatus.running, 0, 0, 0, []⟩
        pages).snapshots,
      j.pagesProcessed = j.pagesSucceeded + j.pagesFailed ∧
      j.errors.length = j.pagesFailed) ∧
    (syncPagesLoop now store ⟨jobId, JobStatus.running, 0, 0, 0, []⟩
      pages).job.errors
      = collectErrors pages
          (syncPagesLoop now store ⟨jobId, JobStatus.running, 0, 0, 0, []⟩
            pages).stepResults ∧
    (syncPagesLoop now store ⟨jobId, JobStatus.running, 0, 0, 0, []⟩
      pages).job.errors.length
      = (syncPagesLoop now store ⟨jobId, JobStatus.running, 0, 0, 0, []⟩
          pages).job.pagesFailed ∧
    (syncPagesLoop now store ⟨jobId, JobStatus.running, 0, 0, 0, []⟩
      pages).job.pagesProcessed
      = (syncPagesLoop now store ⟨jobId, JobStatus.running, 0, 0, 0, []⟩
          pages).job.pagesSucceeded
        + (syncPagesLoop now store ⟨jobId, JobStatus.running, 0, 0, 0, []⟩
            pages).job.pagesFailed := by
  obtain ⟨i1, i2, i3, i4, i5, i6, i7, _⟩ :=
    syncPagesLoop_spec now pages store
      ⟨jobId, JobStatus.running, 0, 0, 0, []⟩ rfl rfl
  refine ⟨i1, ?_, i3, i4, by simpa using i5, i7, i6⟩
  rw [i3, List.length_map, i1]

/-- Concrete run exercising `coordinator_counters_invariant`: two pages,
the first succeeding and the second failing at the content fetch. The
persisted counter trace is (1,1,0) then (2,1,1) and the error list names
exactly the failed page. -/
theorem coordinator_counters_invariant_witness :
    (syncPagesLoop 0 Store.empty ⟨1, JobStatus.running, 0, 0, 0, []⟩
      [⟨⟨"p1", "T1"⟩,
          ⟨Except.ok ("<p>a</p>", []), fun _ => Except.error "u",
            fun _ => Except.error "u", Except.ok ⟨5⟩, Except.ok (),
            fun _ => Except.ok (), fun _ => Except.ok (), Except.ok ()⟩⟩,
        ⟨⟨"p2", "T2"⟩,
          ⟨Except.error "boom", fun _ => Except.error "u",
            fun _ => Except.error "u", Except.ok ⟨6⟩, Except.ok (),
            fun _ => Except.ok (), fun _ => Except.ok (), Except.ok ()⟩⟩]).persisted
      = (syncPagesLoop 0 Store.empty ⟨1, JobStatus.running, 0, 0, 0, []⟩
          [⟨⟨"p1", "T1"⟩,
              ⟨Except.ok ("<p>a</p>", []), fun _ => Except.error "u",
                fun _ => Except.error "u", Except.ok ⟨5⟩, Except.ok (),
                fun _ => Except.ok (), fun _ => Except.ok (), Except.ok ()⟩⟩,
            ⟨⟨"p2", "T2"⟩,
              ⟨Except.error "boom", fun _ => Except.error "u",
                fun _ => Except.error "u", Except.ok ⟨6⟩, Except.ok (),
                fun _ => Except.ok (), fun _ => Except.ok (), Except.ok ()⟩⟩]
          ).snapshots.map
            (fun j => (j.pagesProcessed, j.pagesSucceeded, j.pagesFailed)) ∧
    (syncPagesLoop 0 Store.empty ⟨1, JobStatus.running, 0, 0, 0, []⟩
      [⟨⟨"p1", "T1"⟩,
          ⟨Except.ok ("<p>a</p>", []), fun _ => Except.error "u",
            fun _ => Except.error "u", Except.ok ⟨5⟩, Except.ok (),
            fun _ => Except.ok (), fun _ => Except.ok (), Except.ok ()⟩⟩,
        ⟨⟨"p2", "T2"⟩,
          ⟨Except.error "boom", fun _ => Except.error "u",
            fun _ => Except.error "u", Except.ok ⟨6⟩, Except.ok (),
            fun _ => Except.ok (), fun _ => Except.ok (), Except.ok ()⟩⟩]).persisted
      = [(1, 1, 0), (2, 1, 1)] ∧
    (syncPagesLoop 0 Store.empty ⟨1, JobStatus.running, 0, 0, 0, []⟩
      [⟨⟨"p1", "T1"⟩,
          ⟨Except.ok ("<p>a</p>", []), fun _ => Except.error "u",
            fun _ => Except.error "u", Except.ok ⟨5⟩, Except.ok (),
            fun _ => Except.ok (), fun _ => Except.ok (), Except.ok ()⟩⟩,
        ⟨⟨"p2", "T2"⟩,
          ⟨Except.error "boom", fun _ => Except.error "u",
            fun _ => Except.error "u", Except.ok ⟨6⟩, Except.ok (),
            fun _ => Except.ok (), fun _ => Except.ok (), Except.ok ()⟩⟩]).job.errors
      = [⟨"p2", "T2", "boom"⟩] := by
  refine ⟨(coordinator_counters_invariant 0 Store.empty 1 _).2.2.1, rfl, rfl⟩

/-! ### C1 and C8 — watermark and bootstrap failure -/

theorem jobPatch_skips (jobs : List JobRow) (jobId : Nat)
    (f : JobRow → JobRow) (hfresh : ∀ r ∈ jobs, r.id ≠ jobId) :
    jobs.map (fun r => if r.id = jobId then f r else r) = jobs := by
  induction jobs with
  | nil => rfl
  | cons r rs ih =>
    rw [List.map_cons, if_neg (hfresh r (List.mem_cons_self r rs)),
      ih (fun x hx => hfresh x (List.mem_cons_of_mem r hx))]

theorem find_job_in_snoc (olds : List JobRow) (row : JobRow)
    (hfresh : ∀ r ∈ olds, r.id ≠ row.id) :
    (olds ++ [row]).find? (fun r => r.id == row.id) = some row := by
  induction olds with
  | nil =>
    rw [List.nil_append, List.find?_cons_of_pos]
    simp
  | cons r rs ih =>
    rw [List.cons_append, List.find?_cons_of_neg]
    · exact ih (fun x hx => hfresh x (List.mem_cons_of_mem r hx))
    · simp only [beq_iff_eq]
      exact hfresh r (List.mem_cons_self r rs)

theorem foldl_pickLatest_mem :
    ∀ (l : List JobRow) (acc : Option JobRow),
    l.foldl pickLatest acc = acc ∨ ∃ x ∈ l, l.foldl pickLatest acc = some x := by
  intro l
  induction l with
  | nil => intro acc; exact Or.inl rfl
  | cons r rs ih =>
    intro acc
    rw [List.foldl_cons]
    rcases ih (pickLatest acc r) with h | ⟨x, hx, hh⟩
    · rw [h]
      cases acc with
      | none => exact Or.inr ⟨r, List.mem_cons_self r rs, rfl⟩
      | some b =>
        by_cases hlt : b.completedAt.getD 0 < r.completedAt.getD 0
        · exact Or.inr ⟨r, List.mem_cons_self r rs, by simp [pickLatest, hlt]⟩
        · exact Or.inl (by simp [pickLatest, hlt])
    · exact Or.inr ⟨x, List.mem_cons_of_mem r hx, hh⟩

theorem getLastSync_snoc_not_completed {t s : Store} {olds : List JobRow}
    {row : JobRow} (ht : t.jobs = olds ++ [row]) (hs : s.jobs = olds)
    (hst : row.status ≠ JobStatus.completed) :
    t.getLastSyncTimestamp = s.getLastSyncTimestamp := by
  have hrow : (row.status == JobStatus.completed
      && row.lastSyncTimestamp.isSome) = false := by
    simp [hst]
  simp only [Store.getLastSyncTimestamp, ht, hs, List.filter_append]
  simp [List.filter, hrow]

theorem getLastSync_snoc_completed {t : Store} {olds : List JobRow}
    {row : JobRow} {w c : Nat}
    (ht : t.jobs = olds ++ [row]) (hst : row.status = JobStatus.completed)
    (hw : row.lastSyncTimestamp = some w) (hc : row.completedAt = some c)
    (hdom : ∀ r ∈ olds, r.status = JobStatus.completed →
      r.lastSyncTimestamp.isSome → r.completedAt.getD 0 < c) :
    t.getLastSyncTimestamp = some w := by
  have hrow : (row.status == JobStatus.completed
      && row.lastSyncTimestamp.isSome) = true := by
    simp [hst, hw]
  simp only [Store.getLastSyncTimestamp, ht, List.filter_append,
    List.filter_cons, hrow, if_pos, List.filter_nil, List.foldl_append,
    List.foldl_cons, List.foldl_nil]
  rcases foldl_pickLatest_mem
      (olds.filter (fun r => r.status == JobStatus.completed
        && r.lastSyncTimestamp.isSome)) none with h | ⟨x, hx, hh⟩
  · rw [h]
    simp [pickLatest, hw]
  · rw [hh]
    obtain ⟨hxm, hxp⟩ := List.mem_filter.mp hx
    have hxc : x.status = JobStatus.completed := by
      have := (Bool.and_eq_true _ _).mp hxp
      exact beq_iff_eq.mp this.1
    have hxs : x.lastSyncTimestamp.isSome := by
      have := (Bool.and_eq_true _ _).mp hxp
      exact this.2
    have hlt : x.completedAt.getD 0 < row.completedAt.getD 0 := by
      rw [hc]
      exact hdom x hxm hxc hxs
    simp [pickLatest, hlt, hw]

theorem syncPagesLoop_jobs (now : Nat) (pages : List PageSpec) :
    ∀ (store : Store) (job : SyncJobMem) (olds : List JobRow) (rowR : JobRow),
    store.jobs = olds ++ [rowR] → rowR.id = job.jobId →
    (∀ r ∈ olds, r.id ≠ job.jobId) →
    ∃ p s f,
      (syncPagesLoop now store job pages).store.jobs
        = olds ++ [{ rowR with
            pagesProcessed := p, pagesSucceeded := s, pagesFailed := f }] := by
  induction pages with
  | nil =>
    intro store job olds rowR hj hid hfresh
    refine ⟨rowR.pagesProcessed, rowR.pagesSucceeded, rowR.pagesFailed, ?_⟩
    simp only [syncPagesLoop]
    exact hj
  | cons ps rest ih =>
    intro store job olds rowR hj hid hfresh
    have hsj := (syncPage_jobs ps.env store job.jobId ps.page).1
    rcases hr : (syncPage ps.env store job.jobId ps.page).result with e | u
    · simp only [syncPagesLoop, hr]
      refine ih _ _ olds
        { rowR with
            pagesProcessed := job.pagesProcessed + 1,
            pagesSucceeded := job.pagesSucceeded,
            pagesFailed := job.pagesFailed + 1 } ?_ hid hfresh
      simp only [Store.updateSyncJob, hsj, hj, List.map_append,
        jobPatch_skips olds job.jobId _ hfresh, List.map_cons, List.map_nil,
        if_pos hid]
      rfl
    · simp only [syncPagesLoop, hr]
      refine ih _ _ olds
        { rowR with
            pagesProcessed := job.pagesProcessed + 1,
            pagesSucceeded := job.pagesSucceeded + 1,
            pagesFailed := job.pagesFailed } ?_ hid hfresh
      simp only [Store.updateSyncJob, hsj, hj, List.map_append,
        jobPatch_skips olds job.jobId _ hfresh, List.map_cons, List.map_nil,
        if_pos hid]
      rfl

/-- C8 counterexample. An error raised creating the SyncJob row itself —
part of job bootstrap, spec step (a) — happens before the `try` block:
the exception is re-raised but NO job is marked Failed and NO
notification is sent, contradicting the claim for this bootstrap
failure. -/
theorem createJob_failure_no_notification :
    (executeSyncJob ⟨some "db connection lost", Except.ok [], 0⟩
      Store.empty).result = Except.error "db connection lost" ∧
    (executeSyncJob ⟨some "db connection lost", Except.ok [], 0⟩
      Store.empty).notifications = [] ∧
    (executeSyncJob ⟨some "db connection lost", Except.ok [], 0⟩
      Store.empty).store = Store.empty := by
  exact ⟨rfl, rfl, rfl⟩

/-- C8 as amended. For an error raised after the job row is created and
before the per-item loop (the candidate query), the coordinator marks the
job row Failed with the raw error message (and no watermark write: the
row's `last_sync_timestamp` stays NULL), sends exactly one notification,
re-raises the error, and the watermark consulted by the next run is
unchanged. A failure creating the job row itself only re-raises (see the
counterexample). -/
theorem query_failure_fatal (env : CoordEnv) (store : Store) (e : String)
    (hc : env.createJobFails = none) (hq : env.queryOutcome = Except.error e)
    (hfresh : ∀ r ∈ store.jobs, r.id ≠ store.nextJobId) :
    (executeSyncJob env store).result = Except.error e ∧
    (executeSyncJob env store).store.findJob store.nextJobId
      = some ⟨store.nextJobId, JobStatus.failed, 0, 0, 0, some e, none,
          some env.now⟩ ∧
    (executeSyncJob env store).notifications
      = [⟨store.nextJobId, JobStatus.failed, 0, 0, 0,
          [⟨"N/A", "Fatal Error", e⟩]⟩] ∧
    (executeSyncJob env store).store.getLastSyncTimestamp
      = store.getLastSyncTimestamp := by
  have hjobs : (executeSyncJob env store).store.jobs
      = store.jobs ++ [⟨store.nextJobId, JobStatus.failed, 0, 0, 0, some e,
          none, some env.now⟩] := by
    simp only [executeSyncJob, hc, hq, Store.createSyncJob,
      Store.updateSyncJob, List.map_append,
      jobPatch_skips store.jobs store.nextJobId _ hfresh, List.map_cons,
      List.map_nil, if_pos rfl]
    rfl
  refine ⟨?_, ?_, ?_, ?_⟩
  · simp [executeSyncJob, hc, hq]
  · rw [Store.findJob, hjobs]
    exact find_job_in_snoc store.jobs
      ⟨store.nextJobId, JobStatus.failed, 0, 0, 0, some e, none,
        some env.now⟩ hfresh
  · simp [executeSyncJob, hc, hq, notifyOf, Store.createSyncJob]
  · exact getLastSync_snoc_not_completed hjobs rfl (by simp)

/-- Concrete run exercising `query_failure_fatal` at a failing candidate
query on the empty store. -/
theorem query_failure_fatal_witness :
    ((⟨none, Except.error "Notion query failed: 500", 5⟩ :
        CoordEnv).createJobFails = none ∧
      (⟨none, Except.error "Notion query failed: 500", 5⟩ :
        CoordEnv).queryOutcome = Except.error "Notion query failed: 500" ∧
      (∀ r ∈ Store.empty.jobs, r.id ≠ Store.empty.nextJobId)) ∧
    (executeSyncJob ⟨none, Except.error "Notion query failed: 500", 5⟩
      Store.empty).result = Except.error "Notion query failed: 500" ∧
    (executeSyncJob ⟨none, Except.error "Notion query failed: 500", 5⟩
      Store.empty).store.findJob 1
      = some ⟨1, JobStatus.failed, 0, 0, 0,
          some "Notion query failed: 500", none, some 5⟩ ∧
    (executeSyncJob ⟨none, Except.error "Notion query failed: 500", 5⟩
      Store.empty).store.getLastSyncTimestamp = none := by
  have h := query_failure_fatal
    ⟨none, Except.error "Notion query failed: 500", 5⟩ Store.empty
    "Notion query failed: 500" rfl rfl (by simp [Store.empty])
  exact ⟨⟨rfl, rfl, by simp [Store.empty]⟩, h.1, h.2.1, h.2.2.2⟩

/-- C1 counterexample. A run in which the candidate query succeeds and
the single item fails: the job row's watermark IS persisted as "now"
(200), but the watermark consulted by the next run
(`getLastSyncTimestamp` filters on `status = 'completed'`) still returns
the OLD value 100 — it has not advanced to 200, so already-attempted
items are re-queried. -/
theorem watermark_not_consulted_after_item_failure :
    ((executeSyncJob
      ⟨none, Except.ok [⟨⟨"p1", "T1"⟩,
        ⟨Except.error "boom", fun _ => Except.error "u",
          fun _ => Except.error "u", Except.ok ⟨6⟩, Except.ok (),
          fun _ => Except.ok (), fun _ => Except.ok (), Except.ok ()⟩⟩], 200⟩
      ⟨[⟨1, JobStatus.completed, 1, 1, 0, none, some 100, some 100⟩],
        [], [], [], 2, 1, 1, 1⟩).store.findJob 2).map
          (fun r => r.lastSyncTimestamp) = some (some 200) ∧
    (executeSyncJob
      ⟨none, Except.ok [⟨⟨"p1", "T1"⟩,
        ⟨Except.error "boom", fun _ => Except.error "u",
          fun _ => Except.error "u", Except.ok ⟨6⟩, Except.ok (),
          fun _ => Except.ok (), fun _ => Except.ok (), Except.ok ()⟩⟩], 200⟩
      ⟨[⟨1, JobStatus.completed, 1, 1, 0, none, some 100, some 100⟩],
        [], [], [], 2, 1, 1, 1⟩).store.getLastSyncTimestamp = some 100 ∧
    (100 : Nat) < 200 := by
  exact ⟨rfl, rfl, by decide⟩

/-- C1 as amended. When the candidate query succeeds, the job row's
watermark is persisted as "now" at job end regardless of how many items
failed; but the watermark consulted by the next run (read only from
`status = 'completed'` jobs) advances to that value iff zero items
failed — when any item failed the job is Failed and the next run reuses
the previous watermark, re-querying already-attempted items. -/
theorem watermark_persisted_but_consulted_only_if_completed
    (env : CoordEnv) (store : Store) (pageSpecs : List PageSpec)
    (hc : env.createJobFails = none)
    (hq : env.queryOutcome = Except.ok pageSpecs)
    (hfresh : ∀ r ∈ store.jobs, r.id ≠ store.nextJobId)
    (hdom : ∀ r ∈ store.jobs, r.status = JobStatus.completed →
      r.lastSyncTimestamp.isSome → r.completedAt.getD 0 < env.now) :
    ∃ job2, (executeSyncJob env store).result = Except.ok job2 ∧
      ((executeSyncJob env store).store.findJob store.nextJobId).map
        (fun r => r.lastSyncTimestamp) = some (some env.now) ∧
      (job2.pagesFailed = 0 →
        (executeSyncJob env store).store.getLastSyncTimestamp
          = some env.now) ∧
      (job2.pagesFailed ≠ 0 →
        (executeSyncJob env store).store.getLastSyncTimestamp
          = store.getLastSyncTimestamp) := by
  have hres : (executeSyncJob env store).result
      = Except.ok
        ⟨(syncPagesLoop env.now
            { store with
                jobs := store.jobs ++
                  [⟨store.nextJobId, JobStatus.running, 0, 0, 0, none, none,
                    none⟩],
                nextJobId := store.nextJobId + 1 }
            ⟨store.nextJobId, JobStatus.running, 0, 0, 0, []⟩
            pageSpecs).job.jobId,
          if (syncPagesLoop env.now
              { store with
                  jobs := store.jobs ++
                    [⟨store.nextJobId, JobStatus.running, 0, 0, 0, none, none,
                      none⟩],
                  nextJobId := store.nextJobId + 1 }
              ⟨store.nextJobId, JobStatus.running, 0, 0, 0, []⟩
              pageSpecs).job.pagesFailed = 0
            then JobStatus.completed else JobStatus.failed,
          (syncPagesLoop env.now
            { store with
                jobs := store.jobs ++
                  [⟨store.nextJobId, JobStatus.running, 0, 0, 0, none, none,
                    none⟩],
                nextJobId := store.nextJobId + 1 }
            ⟨store.nextJobId, JobStatus.running, 0, 0, 0, []⟩
            pageSpecs).job.pagesProcessed,
          (syncPagesLoop env.now
            { store with
                jobs := store.jobs ++
                  [⟨store.nextJobId, JobStatus.running, 0, 0, 0, none, none,
                    none⟩],
                nextJobId := store.nextJobId + 1 }
            ⟨store.nextJobId, JobStatus.running, 0, 0, 0, []⟩
            pageSpecs).job.pagesSucceeded,
          (syncPagesLoop env.now
            { store with
                jobs := store.jobs ++
                  [⟨store.nextJobId, JobStatus.running, 0, 0, 0, none, none,
                    none⟩],
                nextJobId := store.nextJobId + 1 }
            ⟨store.nextJobId, JobStatus.running, 0, 0, 0, []⟩
            pageSpecs).job.pagesFailed,
          (syncPagesLoop env.now
            { store with
                jobs := store.jobs ++
                  [⟨store.nextJobId, JobStatus.running, 0, 0, 0, none, none,
                    none⟩],
                nextJobId := store.nextJobId + 1 }
            ⟨store.nextJobId, JobStatus.running, 0, 0, 0, []⟩
            pageSpecs).job.errors⟩ := by
    simp only [executeSyncJob, hc, hq, Store.createSyncJob]
  obtain ⟨p, s, f, hlr⟩ := syncPagesLoop_jobs env.now pageSpecs
    { store with
        jobs := store.jobs ++
          [⟨store.nextJobId, JobStatus.running, 0, 0, 0, none, none, none⟩],
        nextJobId := store.nextJobId + 1 }
    ⟨store.nextJobId, JobStatus.running, 0, 0, 0, []⟩ store.jobs
    ⟨store.nextJobId, JobStatus.running, 0, 0, 0, none, none, none⟩
    rfl rfl hfresh
  have hjid : (syncPagesLoop env.now
      { store with
          jobs := store.jobs ++
            [⟨store.nextJobId, JobStatus.running, 0, 0, 0, none, none, none⟩],
          nextJobId := store.nextJobId + 1 }
      ⟨store.nextJobId, JobStatus.running, 0, 0, 0, []⟩ pageSpecs).job.jobId
      = store.nextJobId :=
    (syncPagesLoop_spec env.now pageSpecs _
      ⟨store.nextJobId, JobStatus.running, 0, 0, 0, []⟩ rfl rfl).2.2.2.2.2.2.2
  by_cases hz : (syncPagesLoop env.now
      { store with
          jobs := store.jobs ++
            [⟨store.nextJobId, JobStatus.running, 0, 0, 0, none, none, none⟩],
          nextJobId := store.nextJobId + 1 }
      ⟨store.nextJobId, JobStatus.running, 0, 0, 0, []⟩
      pageSpecs).job.pagesFailed = 0
  · -- zero failures: job Completed, consulted watermark advances
    have hjobs : (executeSyncJob env store).store.jobs
        = store.jobs ++ [⟨store.nextJobId, JobStatus.completed, p, s, f,
            none, some env.now, some env.now⟩] := by
      simp only [executeSyncJob, hc, hq, Store.createSyncJob,
        Store.updateSyncJob, if_pos hz, hjid, hlr, List.map_append,
        jobPatch_skips store.jobs store.nextJobId _ hfresh, List.map_cons,
        List.map_nil, if_pos rfl]
      rfl
    have hfind : (executeSyncJob env store).store.findJob store.nextJobId
        = some ⟨store.nextJobId, JobStatus.completed, p, s, f,
            none, some env.now, some env.now⟩ := by
      rw [Store.findJob, hjobs]
      exact find_job_in_snoc store.jobs
        ⟨store.nextJobId, JobStatus.completed, p, s, f, none, some env.now,
          some env.now⟩ hfresh
    refine ⟨_, hres, ?_, fun _ => ?_, fun hnz => absurd hz hnz⟩
    · rw [hfind]
      rfl
    · exact getLastSync_snoc_completed hjobs rfl rfl rfl hdom
  · -- some failures: job Failed, consulted watermark unchanged
    have hjobs : (executeSyncJob env store).store.jobs
        = store.jobs ++ [⟨store.nextJobId, JobStatus.failed, p, s, f,
            none, some env.now, some env.now⟩] := by
      simp only [executeSyncJob, hc, hq, Store.createSyncJob,
        Store.updateSyncJob, if_neg hz, hjid, hlr, List.map_append,
        jobPatch_skips store.jobs store.nextJobId _ hfresh, List.map_cons,
        List.map_nil, if_pos rfl]
      rfl
    have hfind : (executeSyncJob env store).store.findJob store.nextJobId
        = some ⟨store.nextJobId, JobStatus.failed, p, s, f,
            none, some env.now, some env.now⟩ := by
      rw [Store.findJob, hjobs]
      exact find_job_in_snoc store.jobs
        ⟨store.nextJobId, JobStatus.failed, p, s, f, none, some env.now,
          some env.now⟩ hfresh
    refine ⟨_, hres, ?_, fun hzz => absurd hzz hz, fun _ => ?_⟩
    · rw [hfind]
      rfl
    · exact getLastSync_snoc_not_completed hjobs rfl (by simp)

/-- Concrete run exercising
`watermark_persisted_but_consulted_only_if_completed`: an empty candidate
set on the empty store — zero failures, so the next run's consulted
watermark equals the persisted "now" (7). -/
theorem watermark_persisted_witness :
    ((⟨none, Except.ok [], 7⟩ : CoordEnv).createJobFails = none ∧
      (⟨none, Except.ok [], 7⟩ : CoordEnv).queryOutcome = Except.ok [] ∧
      (∀ r ∈ Store.empty.jobs, r.id ≠ Store.empty.nextJobId) ∧
      (∀ r ∈ Store.empty.jobs, r.status = JobStatus.completed →
        r.lastSyncTimestamp.isSome → r.completedAt.getD 0 < 7)) ∧
    ((executeSyncJob ⟨none, Except.ok [], 7⟩ Store.empty).store.findJob 1).map
      (fun r => r.lastSyncTimestamp) = some (some 7) ∧
    (executeSyncJob ⟨none, Except.ok [], 7⟩
      Store.empty).store.getLastSyncTimestamp = some 7 := by
  obtain ⟨job2, h1, h2, h3, h4⟩ :=
    watermark_persisted_but_consulted_only_if_completed
      ⟨none, Except.ok [], 7⟩ Store.empty [] rfl rfl
      (by simp [Store.empty]) (by simp [Store.empty])
  have hz : job2.pagesFailed = 0 := by
    have : job2 = ⟨1, JobStatus.completed, 0, 0, 0, []⟩ := by
      have h1' : (executeSyncJob ⟨none, Except.ok [], 7⟩ Store.empty).result
          = Except.ok ⟨1, JobStatus.completed, 0, 0, 0, []⟩ := rfl
      rw [h1'] at h1
      exact (Except.ok.inj h1).symm
    rw [this]
  exact ⟨⟨rfl, rfl, by simp [Store.empty], by simp [Store.empty]⟩, h2, h3 hz⟩

end N2W
